import Mathlib

/-!
Verification of the ticketpy pagination and model-decoding core.

This file shallowly embeds the relevant parts of `ticketpy/client.py` and
`ticketpy/model.py`: Python/JSON values, dictionary operations, the
`attr_map` renaming table, `_Util` helpers (`update_kwargs`, `namedtuple`,
`assign_links`, `format_utc_timestamp`), the entity decoders
(`from_json` of Subgenre/Genre/Segment/Classification/EventClassification/
Attraction/Venue/Place/Dates/Sales/Event), the client-side `Page`
(`PageIterator.__page`, `Page.__init__`, `Page.link_next`), the
`PageIterator` state machine (`__init__` and `next`), and
`ApiException.__init__`.
-/

namespace Ticketpy

/-- Python/JSON values as they flow through the decoders.  JSON
deserialization (`requests.get(...).json()`) produces `null`, booleans,
numbers, strings, arrays and objects; the numbers appearing in the claims
are integers.  `datetime` is the result type of
`_Util.format_utc_timestamp`, which replaces a string value inside a dict
when it runs. -/
inductive JVal where
  | null : JVal
  | bool (b : Bool) : JVal
  | num (n : Int) : JVal
  | str (s : String) : JVal
  | datetime (y mo d h mi sec : Nat) : JVal
  | arr (xs : List JVal) : JVal
  | obj (fs : List (String × JVal)) : JVal
deriving Repr

/-- A Python dict with string keys, as an association list (Python dicts
have unique keys; insertion order is preserved). -/
abbrev Dict := List (String × JVal)

/-- `d[k]`-style lookup returning an `Option` (`d.get(k)` semantics). -/
def dget (d : Dict) (k : String) : Option JVal :=
  match d with
  | [] => none
  | (k', v) :: d' => if k' = k then some v else dget d' k

/-- Keys of a dict. -/
def dkeys (d : Dict) : List String := d.map Prod.fst

/-- `d[k] = v`: replace the entry in place if the key exists, otherwise
append it at the end (Python dict assignment). -/
def dset (d : Dict) (k : String) (v : JVal) : Dict :=
  if (dget d k).isSome then
    d.map (fun p => (p.1, if p.1 = k then v else p.2))
  else
    d ++ [(k, v)]

/-- `del d[k]`: remove the entry with key `k` (keys are unique, so
filtering is the same as removing the one entry). -/
def derase (d : Dict) (k : String) : Dict :=
  d.filter (fun p => p.1 ≠ k)

@[simp] theorem dget_nil (k : String) : dget [] k = none := rfl

@[simp] theorem dget_cons (k' : String) (v : JVal) (d : Dict) (k : String) :
    dget ((k', v) :: d) k = if k' = k then some v else dget d k := rfl

@[simp] theorem dget_cons_pair (p : String × JVal) (d : Dict) (k : String) :
    dget (p :: d) k = if p.1 = k then some p.2 else dget d k := by
  rcases p with ⟨pk, pv⟩
  rfl

theorem dget_eq_none_of_not_mem (d : Dict) (k : String)
    (h : k ∉ dkeys d) : dget d k = none := by
  induction d with
  | nil => rfl
  | cons p d ih =>
    simp [dkeys] at h
    simp [dget, h.1, ih (by simp [dkeys, h.2])]
    intro hc
    exact absurd hc.symm h.1

theorem dget_append (d₁ d₂ : Dict) (k : String) :
    dget (d₁ ++ d₂) k = (dget d₁ k).or (dget d₂ k) := by
  induction d₁ with
  | nil => simp [dget]
  | cons p d ih =>
    by_cases h : p.1 = k
    · simp [dget, h]
    · simp [dget, h, ih]

theorem dget_mapset (d : Dict) (k k' : String) (v : JVal) :
    dget (d.map (fun p => (p.1, if p.1 = k then v else p.2))) k'
      = if k = k' then (if (dget d k).isSome then some v else none)
        else dget d k' := by
  induction d with
  | nil => simp [dget]
  | cons p d ih =>
    rcases p with ⟨pk, pv⟩
    by_cases hpk : pk = k
    · subst hpk
      by_cases hk' : pk = k'
      · subst hk'
        simp
      · simp [hk', ih]
    · by_cases hpk' : pk = k'
      · subst hpk'
        have hkk' : ¬ k = pk := fun h => hpk h.symm
        simp [hpk, hkk']
      · simp [hpk, hpk', ih]

theorem dget_dset (d : Dict) (k k' : String) (v : JVal) :
    dget (dset d k v) k' = if k = k' then some v else dget d k' := by
  unfold dset
  by_cases hin : (dget d k).isSome
  · rw [if_pos hin, dget_mapset]
    by_cases hk' : k = k'
    · simp [hk', hin, hk' ▸ hin]
    · simp [hk']
  · rw [if_neg hin, dget_append]
    by_cases hk' : k = k'
    · subst hk'
      have : dget d k = none := by
        cases h : dget d k with
        | none => rfl
        | some w => exact absurd (by simp [h]) hin
      simp [this, dget]
    · cases h : dget d k' with
      | none => simp [dget, hk', h]
      | some w => simp [dget, hk', h]

theorem dget_derase (d : Dict) (k k' : String) :
    dget (derase d k) k' = if k = k' then none else dget d k' := by
  induction d with
  | nil => simp [derase, dget]
  | cons p d ih =>
    rcases p with ⟨pk, pv⟩
    by_cases hpk : pk = k
    · subst hpk
      by_cases hk' : pk = k'
      · subst hk'
        simpa [derase, dget] using ih
      · simp [derase, dget, hk'] at ih ⊢
        exact ih
    · by_cases hpk' : pk = k'
      · subst hpk'
        have hkk' : ¬ k = pk := fun h => hpk h.symm
        simp [derase, dget, hpk, hkk']
      · simp [derase, dget, hpk, hpk'] at ih ⊢
        exact ih

/-- Python exceptions raised by the modelled code paths. -/
inductive PyErr where
  | keyError (k : String)
  | typeError (msg : String)
  | attributeError (msg : String)
  | valueError (msg : String)
deriving Repr, DecidableEq

/-- `attr_map` from `ticketpy/model.py`: maps keyword-argument (snake_case)
names to API (camelCase) parameter names, in source order. -/
def attrMap : List (String × String) := [
  ("accepted_payment_detail", "acceptedPaymentDetail"),
  ("accessible_seating_detail", "accessibleSeatingDetail"),
  ("additional_info", "additionalInfo"),
  ("attraction_id", "attractionId"),
  ("box_office_info", "boxOfficeInfo"),
  ("child_rule", "childRule"),
  ("classification_id", "classificationId"),
  ("classification_name", "classificationName"),
  ("client_visibility", "clientVisibility"),
  ("country_code", "countryCode"),
  ("date_tba", "dateTBA"),
  ("date_tbd", "dateTBD"),
  ("date_time", "dateTime"),
  ("dma_id", "dmaId"),
  ("end_approximate", "endApproximate"),
  ("end_date_time", "endDateTime"),
  ("general_info", "generalInfo"),
  ("general_rule", "generalRule"),
  ("id", "id"),
  ("include_tba", "includeTBA"),
  ("include_tbd", "includeTBD"),
  ("include_test", "includeTest"),
  ("keyword", "keyword"),
  ("latlong", "latlong"),
  ("line_1", "line1"),
  ("line_2", "line2"),
  ("line_3", "line3"),
  ("local_date", "localDate"),
  ("local_time", "localTime"),
  ("locale", "locale"),
  ("market_id", "marketId"),
  ("no_specific_time", "noSpecificTime"),
  ("onsale_end_date_time", "onsaleEndDateTime"),
  ("onsale_start_date_time", "onsaleStartDateTime"),
  ("open_hours_detail", "openHoursDetail"),
  ("page", "page"),
  ("parking_detail", "parkingDetail"),
  ("phone_number_detail", "phoneNumberDetail"),
  ("please_note", "pleaseNote"),
  ("postal_code", "postalCode"),
  ("price_ranges", "priceRanges"),
  ("promoter_id", "promoterId"),
  ("radius", "radius"),
  ("segment_id", "segmentId"),
  ("segment_name", "segmentName"),
  ("size", "size"),
  ("sort", "sort"),
  ("span_multiple_days", "spanMultipleDays"),
  ("start_approximate", "startApproximate"),
  ("start_date_time", "startDateTime"),
  ("start_tbd", "startTBD"),
  ("state_code", "stateCode"),
  ("subtype", "subType"),
  ("time_tba", "timeTBA"),
  ("venue_id", "venueId"),
  ("will_call_detail", "willCallDetail")
]

/-- Python truthiness (`if x:`) for the modelled values. -/
def jTruthy : JVal → Bool
  | .null => false
  | .bool b => b
  | .num n => n ≠ 0
  | .str s => s ≠ ""
  | .datetime _ _ _ _ _ _ => true
  | .arr xs => !xs.isEmpty
  | .obj fs => !fs.isEmpty

/-- Integer view of a value for arithmetic/comparisons (Python treats
`bool` as an integer). -/
def jToInt : JVal → Option Int
  | .num n => some n
  | .bool b => some (if b then 1 else 0)
  | _ => none

/-- `x[k]` subscript access: `KeyError` when the key is missing,
`TypeError` when the value is not a mapping. -/
def jGetItem (j : JVal) (k : String) : Except PyErr JVal :=
  match j with
  | .obj d =>
    match dget d k with
    | some v => .ok v
    | none => .error (.keyError k)
  | _ => .error (.typeError "object is not subscriptable")

/-- `x += 1` on the page counter. -/
def jAdd1 (j : JVal) : Except PyErr JVal :=
  match jToInt j with
  | some n => .ok (.num (n + 1))
  | none => .error (.typeError "unsupported operand for +=")

/-- `a >= b` on the page counters. -/
def jGe (a b : JVal) : Except PyErr Bool :=
  match jToInt a, jToInt b with
  | some x, some y => .ok (y ≤ x)
  | _, _ =>
    match a, b with
    | .str x, .str y => .ok (y ≤ x)
    | _, _ => .error (.typeError "unorderable types")

/-- Literal brace characters (kept out of string literals). -/
def lbrace : Char := Char.ofNat 123
def rbrace : Char := Char.ofNat 125

mutual
/-- Python `==` on the modelled values.  Numbers and booleans compare by
numeric value; containers compare structurally (Python dict equality is
additionally order-insensitive, which is not modelled; only numeric
comparisons are reached by the pagination code under scrutiny). -/
def jEq : JVal → JVal → Bool
  | .null, .null => true
  | .str a, .str b => a == b
  | .datetime y mo d h mi s, .datetime y' mo' d' h' mi' s' =>
    y == y' && mo == mo' && d == d' && h == h' && mi == mi' && s == s'
  | .arr xs, .arr ys => jEqList xs ys
  | .obj fs, .obj gs => jEqFields fs gs
  | a, b =>
    match jToInt a, jToInt b with
    | some x, some y => x == y
    | _, _ => false

def jEqList : List JVal → List JVal → Bool
  | [], [] => true
  | x :: xs, y :: ys => jEq x y && jEqList xs ys
  | _, _ => false

def jEqFields : List (String × JVal) → List (String × JVal) → Bool
  | [], [] => true
  | (k, v) :: fs, (k', v') :: gs => k == k' && jEq v v' && jEqFields fs gs
  | _, _ => false
end

/-- Decimal rendering of a `Nat`, zero-padded to two digits. -/
def pad2 (n : Nat) : List Char :=
  if n < 10 then '0' :: (toString n).data else (toString n).data

mutual
/-- Python `str(x)` as used by `"{}{}".format(...)`.  `None` renders as
`"None"`; container rendering is simplified (never reached by the
modelled client, which formats only strings and `None`). -/
def pyStr : JVal → List Char
  | .null => "None".data
  | .bool true => "True".data
  | .bool false => "False".data
  | .num n => (toString n).data
  | .str s => s.data
  | .datetime y mo d h mi s =>
    (toString y).data ++ '-' :: pad2 mo ++ '-' :: pad2 d ++ ' ' ::
      pad2 h ++ ':' :: pad2 mi ++ ':' :: pad2 s
  | .arr xs => '[' :: pyStrList xs ++ [']']
  | .obj fs => lbrace :: pyStrFields fs ++ [rbrace]

def pyStrList : List JVal → List Char
  | [] => []
  | [x] => pyStr x
  | x :: xs => pyStr x ++ ',' :: ' ' :: pyStrList xs

def pyStrFields : List (String × JVal) → List Char
  | [] => []
  | [(k, v)] => '\'' :: k.data ++ '\'' :: ':' :: ' ' :: pyStr v
  | (k, v) :: fs =>
    '\'' :: k.data ++ '\'' :: ':' :: ' ' :: pyStr v ++ ',' :: ' ' :: pyStrFields fs
end

/-- One decimal digit. -/
def digitVal (c : Char) : Option Nat :=
  if c.isDigit then some (c.toNat - 48) else none

/-- Two decimal digits. -/
def twoDigits (a b : Char) : Option Nat := do
  let x ← digitVal a
  let y ← digitVal b
  pure (10 * x + y)

/-- `datetime.strptime(timestamp, "%Y-%m-%dT%H:%M:%SZ")`: four-digit
year, two-digit month/day/hour/minute/second with the literal
separators, `ValueError` on any mismatch.  (The result is a naive
`datetime`; `strptime` attaches no timezone.) -/
def parseTs (s : String) : Except PyErr JVal :=
  match s.data with
  | [y1, y2, y3, y4, '-', m1, m2, '-', d1, d2, 'T',
     h1, h2, ':', i1, i2, ':', s1, s2, 'Z'] =>
    match twoDigits y1 y2, twoDigits y3 y4, twoDigits m1 m2,
          twoDigits d1 d2, twoDigits h1 h2, twoDigits i1 i2,
          twoDigits s1 s2 with
    | some yhi, some ylo, some mo, some d, some h, some mi, some sec =>
      if 1 ≤ mo ∧ mo ≤ 12 ∧ 1 ≤ d ∧ d ≤ 31 ∧ h ≤ 23 ∧ mi ≤ 59 ∧ sec ≤ 61 then
        .ok (.datetime (100 * yhi + ylo) mo d h mi sec)
      else .error (.valueError "time data does not match format")
    | _, _, _, _, _, _, _ => .error (.valueError "time data does not match format")
  | _ => .error (.valueError "time data does not match format")

/-- `_Util.format_utc_timestamp`: cast timestamp str to `datetime`. -/
def formatUtcTimestamp (v : JVal) : Except PyErr JVal :=
  match v with
  | .str s => parseTs s
  | _ => .error (.typeError "strptime() argument must be str")

/-- One iteration of the renaming loop in `_Util.update_kwargs`:
`if v in kwargs and v != k: kwargs[k] = kwargs[v]; del kwargs[v]`. -/
def ukStep (kw : Dict) (e : String × String) : Dict :=
  if (dget kw e.2).isSome ∧ e.2 ≠ e.1 then
    derase (dset kw e.1 ((dget kw e.2).getD .null)) e.2
  else kw

/-- The full renaming loop of `_Util.update_kwargs` over `attr_map`. -/
def ukFold (kw : Dict) : Dict := attrMap.foldl ukStep kw

/-- `_Util.update_kwargs`: rename keys per `attr_map`, then parse a
`dateTime` entry if one is (still) present in the renamed dict. -/
def updateKwargs (kw : Dict) : Except PyErr Dict :=
  match dget (ukFold kw) "dateTime" with
  | some v => do
    let t ← formatUtcTimestamp v
    pure (dset (ukFold kw) "dateTime" t)
  | none => pure (ukFold kw)

/-! ### Link normalization

`_Util.assign_links` cleans hrefs with `re.sub` applied to the pattern
consisting of an opening brace, one or more non-newline characters and a
closing brace; `Page.link_next` instead uses `str.replace` with the
literal template (opening brace, `&sort`, closing brace). -/

/-- Index of the last closing brace in a character list, if any. -/
def lastClose : List Char → Option Nat
  | [] => none
  | c :: cs =>
    match lastClose cs with
    | some j => some (j + 1)
    | none => if c = rbrace then some 0 else none

/-- Greedy match end for the brace regex: given the characters following
an opening brace, the index of the last closing brace that is preceded
only by non-newline characters and at least one character (the regex dot
matches any character except newline, and the plus requires a non-empty
interior). -/
def greedyEnd (cs : List Char) : Option Nat :=
  match lastClose (cs.takeWhile (· ≠ '\n')) with
  | some j => if 1 ≤ j then some j else none
  | none => none

/-- Recursion core of the `re.sub` scan, structurally recursive on a
fuel bound (any fuel at least the list length gives the scan's value;
the wrapper passes the length). -/
def pySubGo : Nat → List Char → List Char
  | _, [] => []
  | 0, _ :: _ => []
  | fuel + 1, c :: cs =>
    if c = lbrace then
      match greedyEnd cs with
      | some j => pySubGo fuel (cs.drop (j + 1))
      | none => c :: pySubGo fuel cs
    else c :: pySubGo fuel cs

/-- `re.sub` with the brace-template pattern and empty replacement:
scan left to right; at an opening brace with a greedy match, delete
through the match end and continue after it. -/
def pySub (s : List Char) : List Char := pySubGo s.length s

/-- The literal template removed by `Page.link_next`
(`'\x7b&sort\x7d'`). -/
def sortTmpl : List Char := lbrace :: '&' :: 's' :: 'o' :: 'r' :: 't' :: [rbrace]

/-- Recursion core of `str.replace(old, '')`, structurally recursive on
a fuel bound (the wrapper passes the list length). -/
def replaceSortGo : Nat → List Char → List Char
  | _, [] => []
  | 0, _ :: _ => []
  | fuel + 1, c :: cs =>
    if sortTmpl.isPrefixOf (c :: cs) then
      replaceSortGo fuel ((c :: cs).drop sortTmpl.length)
    else c :: replaceSortGo fuel cs

/-- Python `str.replace(old, '')` for the sort template: single
left-to-right pass over non-overlapping occurrences. -/
def replaceSort (s : List Char) : List Char := replaceSortGo s.length s

/-- Whether `pat` occurs as a contiguous subsequence of `s`
(Python `in` on strings). -/
def containsSeq (pat : List Char) : List Char → Bool
  | [] => pat.isEmpty
  | c :: cs => pat.isPrefixOf (c :: cs) || containsSeq pat cs

/-- Entity link values: a normalized href, or a non-href entry kept
verbatim. -/
inductive LinkVal where
  | url (s : String)
  | raw (v : JVal)
deriving Repr

abbrev Links := List (String × LinkVal)

/-- Regex cleanup plus optional base-url prefix, as applied to one href
by `_Util.assign_links`. -/
def mkHref (h : String) (base : Option String) : String :=
  let cleaned := String.mk (pySub h.data)
  match base with
  | some b => b ++ cleaned
  | none => cleaned

/-- One `_links` entry in `_Util.assign_links`: entries carrying an
`href` get the cleaned URL; other values are stored unchanged.  Python
`'href' in v` is a key test for dicts, an element test for lists and a
substring test for strings, raising `TypeError` for other types; when it
succeeds, `v['href']` on a non-dict raises `TypeError`, as does `re.sub`
on a non-string href. -/
def linkEntry (base : Option String) (kv : String × JVal) :
    Except PyErr (String × LinkVal) :=
  match kv.2 with
  | .obj d =>
    match dget d "href" with
    | some (.str h) => .ok (kv.1, .url (mkHref h base))
    | some _ => .error (.typeError "expected string or bytes-like object")
    | none => .ok (kv.1, .raw kv.2)
  | .arr xs =>
    if xs.any (fun x => jEq x (.str "href")) then
      .error (.typeError "list indices must be integers")
    else .ok (kv.1, .raw kv.2)
  | .str s =>
    if containsSeq "href".data s.data then
      .error (.typeError "string indices must be integers")
    else .ok (kv.1, .raw kv.2)
  | _ => .error (.typeError "argument is not iterable")

/-- `_Util.assign_links`: read `_links` (defaulting to the empty dict),
then normalize each entry.  A `_links` value that is not a dict fails
when iterated (`AttributeError: items`). -/
def assignLinks (d : Dict) (base : Option String) : Except PyErr Links :=
  match dget d "_links" with
  | none => .ok []
  | some (.obj ls) => ls.mapM (linkEntry base)
  | some _ => .error (.attributeError "items")

/-! ### `_Util.namedtuple` -/

/-- A decoded namedtuple: every field present, defaulting to `None`. -/
abbrev NT := List (String × JVal)

/-- `_Util.namedtuple(model, json_obj)`: falsy input yields `None`;
otherwise build the all-`None` field dict, rename the JSON keys via
`_Util.update_kwargs`, overlay them, and construct the namedtuple —
which raises `TypeError` if any key is not a declared field. -/
def ntDecode (fields : List String) (j : JVal) : Except PyErr (Option NT) :=
  if !jTruthy j then .ok none
  else
    match j with
    | .obj d => do
      let d' ← updateKwargs d
      if (dkeys d').all (fun k => fields.contains k) then
        .ok (some (fields.map (fun f => (f, (dget d' f).getD .null))))
      else .error (.typeError "unexpected keyword argument")
    | _ => .error (.typeError "update of mapping from non-mapping")

def imageFields : List String :=
  ["url", "ratio", "width", "height", "fallback", "attribution"]
def priceFields : List String := ["type", "currency", "min", "max"]
def promoterFields : List String := ["id", "name", "description"]
def cityFields : List String := ["name"]
def stateFields : List String := ["state_code", "name"]
def countryFields : List String := ["country_code", "name"]
def addressFields : List String := ["line_1", "line_2", "line_3"]
def locationFields : List String := ["latitude", "longitude"]
def areaFields : List String := ["name"]
def dmaFields : List String := ["id"]
def marketFields : List String := ["id"]
def boxOfficeFields : List String :=
  ["phone_number_detail", "open_hours_detail",
   "accepted_payment_detail", "will_call_detail"]
def generalInfoFields : List String := ["general_rule", "child_rule"]
def startFields : List String :=
  ["local_date", "local_time", "date_time", "date_tbd",
   "date_tba", "time_tba", "no_specific_time"]
def endFields : List String :=
  ["local_time", "local_date", "date_time", "approximate", "no_specific_time"]
def accessFields : List String :=
  ["start_date_time", "start_approximate", "end_date_time", "end_approximate"]
def statusFields : List String := ["code"]
def publicSaleFields : List String :=
  ["start_date_time", "end_date_time", "start_tbd"]
def presaleFields : List String :=
  ["name", "description", "url", "start_date_time", "end_date_time"]

/-! ### Entity decoders (`ticketpy/model.py` `from_json` methods)

Python object attributes that hold plain JSON values are modelled as
`JVal` (with `null` standing for `None`); attributes that are only set
conditionally are `Option`s. -/

/-- `d.get(k)` with `None` for a missing key. -/
def dgetD (d : Dict) (k : String) : JVal := (dget d k).getD .null

/-- `for x in v`: iterating a JSON value; only arrays iterate as entity
lists (iterating a string yields characters, which then fail in the
per-element decoders with a `TypeError` as well). -/
def jIterList (j : JVal) : Except PyErr (List JVal) :=
  match j with
  | .arr xs => .ok xs
  | _ => .error (.typeError "object is not iterable")

structure SubgenreT where
  id : JVal
  name : JVal
  links : Links
deriving Repr

/-- `Subgenre.from_json`: mandatory `id`/`name` subscripts, then links. -/
def subgenreFromJson (j : JVal) : Except PyErr SubgenreT := do
  let i ← jGetItem j "id"
  let n ← jGetItem j "name"
  match j with
  | .obj d => do
    let ls ← assignLinks d none
    pure ⟨i, n, ls⟩
  | _ => .error (.typeError "object is not subscriptable")

structure GenreT where
  id : JVal
  name : JVal
  subgenres : Option (List SubgenreT)
  links : Links
deriving Repr

/-- `Genre.from_json`: optional `id`/`name`; if `_embedded` is present
its `subgenres` entry is mandatory and each element is decoded. -/
def genreFromJson (j : JVal) : Except PyErr GenreT :=
  match j with
  | .obj d => do
    let sgs ←
      match dget d "_embedded" with
      | some emb => do
        let sgv ← jGetItem emb "subgenres"
        let xs ← jIterList sgv
        let l ← xs.mapM subgenreFromJson
        pure (some l)
      | none => pure none
    let ls ← assignLinks d none
    pure ⟨dgetD d "id", dgetD d "name", sgs, ls⟩
  | _ => .error (.attributeError "object has no attribute get")

structure SegmentT where
  id : JVal
  name : JVal
  genres : Option (List GenreT)
  links : Links
deriving Repr

/-- `Segment.from_json`: mandatory `id`/`name` subscripts; if
`_embedded` is present its `genres` entry is mandatory. -/
def segmentFromJson (j : JVal) : Except PyErr SegmentT := do
  let i ← jGetItem j "id"
  let n ← jGetItem j "name"
  match j with
  | .obj d => do
    let gs ←
      match dget d "_embedded" with
      | some emb => do
        let gv ← jGetItem emb "genres"
        let xs ← jIterList gv
        let l ← xs.mapM genreFromJson
        pure (some l)
      | none => pure none
    let ls ← assignLinks d none
    pure ⟨i, n, gs, ls⟩
  | _ => .error (.typeError "object is not subscriptable")

/-- `ClassificationType(cl_t['id'], cl_t['name'])` (subtypes stay `None`). -/
structure ClTypeT where
  id : JVal
  name : JVal
deriving Repr

/-- `ClassificationSubType(st['id'], st['name'])`. -/
structure ClSubTypeT where
  id : JVal
  name : JVal
deriving Repr

structure ClassificationT where
  type : Option ClTypeT
  primary : JVal
  segment : Option SegmentT
  subtype : Option ClSubTypeT
  links : Links
deriving Repr

/-- `Classification.from_json` (classification-search shape):
`primary`, optional `segment`, truthy-guarded `type`/`subType`. -/
def classificationFromJson (j : JVal) : Except PyErr ClassificationT :=
  match j with
  | .obj d => do
    let seg ←
      if jTruthy (dgetD d "segment") then do
        let s ← segmentFromJson (dgetD d "segment")
        pure (some s)
      else pure none
    let ty ←
      if jTruthy (dgetD d "type") then do
        let i ← jGetItem (dgetD d "type") "id"
        let n ← jGetItem (dgetD d "type") "name"
        pure (some (ClTypeT.mk i n))
      else pure none
    let st ←
      if jTruthy (dgetD d "subType") then do
        let i ← jGetItem (dgetD d "subType") "id"
        let n ← jGetItem (dgetD d "subType") "name"
        pure (some (ClSubTypeT.mk i n))
      else pure none
    let ls ← assignLinks d none
    pure ⟨ty, dgetD d "primary", seg, st, ls⟩
  | _ => .error (.attributeError "object has no attribute get")

structure EventClassificationT where
  subtype : Option ClSubTypeT
  type : Option ClTypeT
  genre : Option GenreT
  segment : Option SegmentT
  subgenre : Option SubgenreT
  primary : JVal
  links : Links
deriving Repr

/-- `EventClassification.from_json` (event-search shape): adds
`genre`/`subGenre` to the classification chain. -/
def eventClassificationFromJson (j : JVal) : Except PyErr EventClassificationT :=
  match j with
  | .obj d => do
    let seg ←
      if jTruthy (dgetD d "segment") then do
        let s ← segmentFromJson (dgetD d "segment")
        pure (some s)
      else pure none
    let gen ←
      if jTruthy (dgetD d "genre") then do
        let g ← genreFromJson (dgetD d "genre")
        pure (some g)
      else pure none
    let sg ←
      if jTruthy (dgetD d "subGenre") then do
        let s ← subgenreFromJson (dgetD d "subGenre")
        pure (some s)
      else pure none
    let ty ←
      if jTruthy (dgetD d "type") then do
        let i ← jGetItem (dgetD d "type") "id"
        let n ← jGetItem (dgetD d "type") "name"
        pure (some (ClTypeT.mk i n))
      else pure none
    let st ←
      if jTruthy (dgetD d "subType") then do
        let i ← jGetItem (dgetD d "subType") "id"
        let n ← jGetItem (dgetD d "subType") "name"
        pure (some (ClSubTypeT.mk i n))
      else pure none
    let ls ← assignLinks d none
    pure ⟨st, ty, gen, seg, sg, dgetD d "primary", ls⟩
  | _ => .error (.attributeError "object has no attribute get")

structure AttractionT where
  id : JVal
  name : JVal
  url : JVal
  test : JVal
  images : Option (List (Option NT))
  classifications : Option (List ClassificationT)
  links : Links
deriving Repr

/-- `Attraction.from_json`. -/
def attractionFromJson (j : JVal) : Except PyErr AttractionT :=
  match j with
  | .obj d => do
    let images ←
      if jTruthy (dgetD d "images") then do
        let xs ← jIterList (dgetD d "images")
        let l ← xs.mapM (ntDecode imageFields)
        pure (some l)
      else pure none
    let cls ←
      if jTruthy (dgetD d "classifications") then do
        let xs ← jIterList (dgetD d "classifications")
        let l ← xs.mapM classificationFromJson
        pure (some l)
      else pure none
    let ls ← assignLinks d none
    pure ⟨dgetD d "id", dgetD d "name", dgetD d "url", dgetD d "test",
          images, cls, ls⟩
  | _ => .error (.attributeError "object has no attribute get")

structure PlaceT where
  name : JVal
  postalCode : JVal
  area : Option NT
  address : Option NT
  city : Option NT
  state : Option NT
  country : Option NT
  location : Option NT
deriving Repr

/-- `Place.from_json`: namedtuple kwargs in source literal order, then
`update_kwargs` (which statically renames only `postalCode` to
`postal_code`; no `dateTime` key is ever in this kwargs dict). -/
def placeFromJson (j : JVal) : Except PyErr PlaceT :=
  match j with
  | .obj d => do
    let area ← ntDecode areaFields (dgetD d "area")
    let address ← ntDecode addressFields (dgetD d "address")
    let city ← ntDecode cityFields (dgetD d "city")
    let state ← ntDecode stateFields (dgetD d "state")
    let country ← ntDecode countryFields (dgetD d "country")
    let location ← ntDecode locationFields (dgetD d "location")
    pure ⟨dgetD d "name", dgetD d "postalCode",
          area, address, city, state, country, location⟩
  | _ => .error (.attributeError "object has no attribute get")

structure DatesT where
  timezone : JVal
  spanMultipleDays : JVal
  start : Option NT
  end_ : Option NT
  access : Option NT
  status : Option NT
deriving Repr

/-- `Dates.from_json`: called directly on `json_event.get('dates')`, so
a missing or non-dict `dates` raises `AttributeError` (there is no
truthiness guard at the call site in `Event.from_json`). -/
def datesFromJson (j : JVal) : Except PyErr DatesT :=
  match j with
  | .obj d => do
    let start ← ntDecode startFields (dgetD d "start")
    let end_ ← ntDecode endFields (dgetD d "end")
    let access ← ntDecode accessFields (dgetD d "access")
    let status ← ntDecode statusFields (dgetD d "status")
    pure ⟨dgetD d "timezone", dgetD d "spanMultipleDays",
          start, end_, access, status⟩
  | _ => .error (.attributeError "object has no attribute get")

structure SalesT where
  public : Option NT
  presales : Option (List (Option NT))
deriving Repr

/-- `Sales.from_json`. -/
def salesFromJson (j : JVal) : Except PyErr SalesT :=
  match j with
  | .obj d => do
    let pub ←
      if jTruthy (dgetD d "public") then
        ntDecode publicSaleFields (dgetD d "public")
      else pure none
    let pre ←
      if jTruthy (dgetD d "presales") then do
        let xs ← jIterList (dgetD d "presales")
        let l ← xs.mapM (ntDecode presaleFields)
        pure (some l)
      else pure none
    pure ⟨pub, pre⟩
  | _ => .error (.attributeError "object has no attribute get")

structure VenueT where
  name : JVal
  url : JVal
  type : JVal
  distance : JVal
  units : JVal
  locale : JVal
  description : JVal
  additionalInfo : JVal
  postalCode : JVal
  timezone : JVal
  currency : JVal
  parkingDetail : JVal
  test : JVal
  social : JVal
  id : JVal
  city : Option NT
  state : Option NT
  country : Option NT
  address : Option NT
  location : Option NT
  generalInfo : Option NT
  boxOfficeInfo : Option NT
  accessibleSeatingDetail : JVal
  images : Option (List (Option NT))
  markets : Option (List (Option NT))
  dmas : Option (List (Option NT))
  links : Links
deriving Repr

/-- `Venue.from_json`: the kwargs dict (args comprehension plus the
update literal, in source order), `update_kwargs` (statically renaming
the camelCase keys of that fixed-key dict; it contains no `dateTime`),
the `Venue(**kwargs)` construction, then the truthy-guarded
`images`/`markets`/`dmas` lists and `assign_links`. -/
def venueFromJson (j : JVal) : Except PyErr VenueT :=
  match j with
  | .obj d => do
    let city ← ntDecode cityFields (dgetD d "city")
    let state ← ntDecode stateFields (dgetD d "state")
    let country ← ntDecode countryFields (dgetD d "country")
    let address ← ntDecode addressFields (dgetD d "address")
    let location ← ntDecode locationFields (dgetD d "location")
    let generalInfo ← ntDecode generalInfoFields (dgetD d "generalInfo")
    let boxOfficeInfo ← ntDecode boxOfficeFields (dgetD d "boxOfficeInfo")
    let images ←
      if jTruthy (dgetD d "images") then do
        let xs ← jIterList (dgetD d "images")
        let l ← xs.mapM (ntDecode imageFields)
        pure (some l)
      else pure none
    let markets ←
      if jTruthy (dgetD d "markets") then do
        let xs ← jIterList (dgetD d "markets")
        let l ← xs.mapM (ntDecode marketFields)
        pure (some l)
      else pure none
    let dmas ←
      if jTruthy (dgetD d "dmas") then do
        let xs ← jIterList (dgetD d "dmas")
        let l ← xs.mapM (ntDecode dmaFields)
        pure (some l)
      else pure none
    let ls ← assignLinks d none
    pure ⟨dgetD d "name", dgetD d "url", dgetD d "type", dgetD d "distance",
          dgetD d "units", dgetD d "locale", dgetD d "description",
          dgetD d "additionalInfo", dgetD d "postalCode", dgetD d "timezone",
          dgetD d "currency", dgetD d "parkingDetail", dgetD d "test",
          dgetD d "social", dgetD d "id",
          city, state, country, address, location, generalInfo,
          boxOfficeInfo, dgetD d "accessibleSeatingDetail",
          images, markets, dmas, ls⟩
  | _ => .error (.attributeError "object has no attribute get")

structure EventT where
  name : JVal
  distance : JVal
  units : JVal
  locale : JVal
  description : JVal
  url : JVal
  test : JVal
  info : JVal
  id : JVal
  promoter : Option NT
  dates : DatesT
  sales : Option SalesT
  images : Option (List (Option NT))
  place : Option PlaceT
  priceRanges : Option (List (Option NT))
  classifications : Option (List EventClassificationT)
  venues : Option (List VenueT)
  attractions : Option (List AttractionT)
  links : Links
deriving Repr

/-- `embedded.get(k)` where `embedded = json_event.get('_embedded', \x7b\x7d)`:
an `_embedded` value that is present but not a dict has no `get`. -/
def embGet (emb : JVal) (k : String) : Except PyErr JVal :=
  match emb with
  | .obj ed => .ok (dgetD ed k)
  | _ => .error (.attributeError "object has no attribute get")

/-- `Event.from_json`: the kwargs construction (args comprehension,
`promoter` namedtuple, unconditional `Dates.from_json` on
`json_event.get('dates')`), then the truthy-guarded `sales`, `images`,
`place`, `priceRanges`, `classifications`, embedded `venues` and
`attractions`, and `assign_links`, in source order. -/
def eventFromJson (j : JVal) : Except PyErr EventT :=
  match j with
  | .obj d => do
    let promoter ← ntDecode promoterFields (dgetD d "promoter")
    let dates ← datesFromJson (dgetD d "dates")
    let sales ←
      if jTruthy (dgetD d "sales") then do
        let s ← salesFromJson (dgetD d "sales")
        pure (some s)
      else pure none
    let images ←
      if jTruthy (dgetD d "images") then do
        let xs ← jIterList (dgetD d "images")
        let l ← xs.mapM (ntDecode imageFields)
        pure (some l)
      else pure none
    let place ←
      if jTruthy (dgetD d "place") then do
        let p ← placeFromJson (dgetD d "place")
        pure (some p)
      else pure none
    let priceRanges ←
      if jTruthy (dgetD d "priceRanges") then do
        let xs ← jIterList (dgetD d "priceRanges")
        let l ← xs.mapM (ntDecode priceFields)
        pure (some l)
      else pure none
    let cls ←
      if jTruthy (dgetD d "classifications") then do
        let xs ← jIterList (dgetD d "classifications")
        let l ← xs.mapM eventClassificationFromJson
        pure (some l)
      else pure none
    let emb := (dget d "_embedded").getD (.obj [])
    let vv ← embGet emb "venues"
    let venues ←
      if jTruthy vv then do
        let xs ← jIterList vv
        let l ← xs.mapM venueFromJson
        pure (some l)
      else pure none
    let av ← embGet emb "attractions"
    let attractions ←
      if jTruthy av then do
        let xs ← jIterList av
        let l ← xs.mapM attractionFromJson
        pure (some l)
      else pure none
    let ls ← assignLinks d none
    pure ⟨dgetD d "name", dgetD d "distance", dgetD d "units",
          dgetD d "locale", dgetD d "description", dgetD d "url",
          dgetD d "test", dgetD d "info", dgetD d "id",
          promoter, dates, sales, images, place, priceRanges, cls,
          venues, attractions, ls⟩
  | _ => .error (.attributeError "object has no attribute get")

/-! ### Client layer (`ticketpy/client.py`) -/

/-- `ApiClient.base_url`. -/
def baseUrl : String := "https://app.ticketmaster.com"

/-- A decoded page entity (`Page(list)` contents in `client.py`). -/
inductive Entity where
  | ev (e : EventT)
  | ven (v : VenueT)
  | att (a : AttractionT)
  | cls (c : ClassificationT)
deriving Repr

/-- Python `k in v` (`'events' in embedded`): key test for dicts,
element test for lists, substring test for strings, `TypeError`
otherwise. -/
def jHasKey (j : JVal) (k : String) : Except PyErr Bool :=
  match j with
  | .obj d => .ok (dget d k).isSome
  | .arr xs => .ok (xs.any (fun x => jEq x (.str k)))
  | .str s => .ok (containsSeq k.data s.data)
  | _ => .error (.typeError "argument is not iterable")

/-- The embedded-entity dispatch of `Page.__init__`: the first matching
key among `events`, `venues`, `attractions`, `classifications` selects
the decoder; with no match the page has no items. -/
def pageItems (embedded : JVal) : Except PyErr (List Entity) := do
  let he ← jHasKey embedded "events"
  if he then do
    let v ← jGetItem embedded "events"
    let xs ← jIterList v
    let l ← xs.mapM eventFromJson
    pure (l.map Entity.ev)
  else do
    let hv ← jHasKey embedded "venues"
    if hv then do
      let v ← jGetItem embedded "venues"
      let xs ← jIterList v
      let l ← xs.mapM venueFromJson
      pure (l.map Entity.ven)
    else do
      let ha ← jHasKey embedded "attractions"
      if ha then do
        let v ← jGetItem embedded "attractions"
        let xs ← jIterList v
        let l ← xs.mapM attractionFromJson
        pure (l.map Entity.att)
      else do
        let hc ← jHasKey embedded "classifications"
        if hc then do
          let v ← jGetItem embedded "classifications"
          let xs ← jIterList v
          let l ← xs.mapM classificationFromJson
          pure (l.map Entity.cls)
        else pure []

/-- The client-side `Page`: metadata, raw self/next hrefs
(`_link_self`, `_link_next`; the latter is `None` when the response had
no `next` link), and the decoded entity list. -/
structure CPage where
  number : JVal
  size : JVal
  totalElements : JVal
  totalPages : JVal
  linkSelf : JVal
  linkNextRaw : Option JVal
  items : List Entity
deriving Repr

/-- `PageIterator.__page` followed by `Page.__init__`: mandatory
`page` block, `_links` block, the four metadata subscripts and
`_links['self']['href']`; `next` and `_embedded` are optional. -/
def pageOf (kwargs : Dict) : Except PyErr CPage := do
  let page ←
    match dget kwargs "page" with
    | some v => pure v
    | none => .error (.keyError "page")
  let links ←
    match dget kwargs "_links" with
    | some v => pure v
    | none => .error (.keyError "_links")
  let hasNext ← jHasKey links "next"
  let linksNext ←
    if hasNext then do
      let nv ← jGetItem links "next"
      let hv ← jGetItem nv "href"
      pure (some hv)
    else pure (none : Option JVal)
  let number ← jGetItem page "number"
  let size ← jGetItem page "size"
  let totalElements ← jGetItem page "totalElements"
  let totalPages ← jGetItem page "totalPages"
  let sv ← jGetItem links "self"
  let selfHref ← jGetItem sv "href"
  let embedded := (dget kwargs "_embedded").getD (.obj [])
  let items ← pageItems embedded
  pure ⟨number, size, totalElements, totalPages, selfHref, linksNext, items⟩

/-- The string built by the `Page.link_next` property:
`"\x7b\x7d\x7b\x7d".format(ApiClient.base_url, self._link_next)` followed by
`.replace('\x7b&sort\x7d', '')`.  When `_link_next` is `None`, `format`
renders it as the four characters `None`. -/
def linkNextStr (raw : Option JVal) : List Char :=
  replaceSort (baseUrl.data ++ pyStr (match raw with
    | none => JVal.null
    | some v => v))

/-- The `Page.link_next` property as tested by `next()`'s
`if self.page.link_next is None:` guard: the property always returns a
string, so the result is always `some`. -/
def pageLinkNextOpt (raw : Option JVal) : Option (List Char) :=
  some (linkNextStr raw)

/-- The `Page.link_self` property. -/
def linkSelfStr (raw : JVal) : List Char :=
  baseUrl.data ++ pyStr raw

/-- `PageIterator` state: current page object plus the
`start_page`/`current_page`/`end_page` counters (raw values taken from
the page metadata). -/
structure IterState where
  page : CPage
  startPage : JVal
  currentPage : JVal
  endPage : JVal
deriving Repr

/-- `PageIterator.__init__`: decode the initial response into a page
and seed the counters. -/
def mkIter (kwargs : Dict) : Except PyErr IterState := do
  let p ← pageOf kwargs
  pure ⟨p, p.number, p.number, p.totalPages⟩

/-- Result of one `next()` call: a yielded item list with the successor
state, or `StopIteration`. -/
inductive NextOut where
  | items (is : List Entity) (st : IterState)
  | stopIter
deriving Repr

/-- `PageIterator.next` with an explicit HTTP oracle `fetch`.  The
second component logs the URLs passed to `requests.get`, so "no fetch
happened" is the statement that the log is empty.  Mirrors the source:
yield the initial page if the counter still equals its number;
`StopIteration` once `current_page >= end_page`; otherwise increment,
fetch `self.page.link_next`, decode the new page, and bump the counter
to `end_page` if the new page's `link_next` property `is None` (which,
the property being string-valued, never holds). -/
def nextS (fetch : List Char → Dict) (st : IterState) :
    Except PyErr NextOut × List (List Char) :=
  if jEq st.page.number st.currentPage then
    match jAdd1 st.currentPage with
    | .error e => (.error e, [])
    | .ok c' => (.ok (.items st.page.items { st with currentPage := c' }), [])
  else
    match jGe st.currentPage st.endPage with
    | .error e => (.error e, [])
    | .ok true => (.ok .stopIter, [])
    | .ok false =>
      match jAdd1 st.currentPage with
      | .error e => (.error e, [])
      | .ok c' =>
        let url := linkNextStr st.page.linkNextRaw
        let resp := fetch url
        match pageOf resp with
        | .error e => (.error e, [url])
        | .ok p =>
          let st' := { st with currentPage := c', page := p }
          let st'' :=
            if (pageLinkNextOpt p.linkNextRaw).isNone then
              { st' with currentPage := st'.endPage }
            else st'
          (.ok (.items p.items st''), [url])

/-- The `ApiException` object: request URL, stored parameters, and the
server error list. -/
structure ApiExc where
  url : String
  params : Dict
  errors : JVal
deriving Repr

/-- `ApiException.__init__(url, params, response)`: `del
params['apikey']` mutates the caller's dict (raising `KeyError` when
the key is absent), the mutated dict itself is stored as `self.params`,
and `response['errors']` is read afterwards.  The second component of
the result is the caller's dict after construction. -/
def apiExceptionInit (url : String) (params : Dict) (response : Dict) :
    Except PyErr (ApiExc × Dict) :=
  match dget params "apikey" with
  | none => .error (.keyError "apikey")
  | some _ =>
    let params' := derase params "apikey"
    match dget response "errors" with
    | some errs => .ok (⟨url, params', errs⟩, params')
    | none => .error (.keyError "errors")

/-! ### Helper lemmas -/

/-- Inversion for `Except` bind. -/
theorem exbind_ok {α β : Type} {x : Except PyErr α} {f : α → Except PyErr β}
    {b : β} : (x >>= f) = .ok b ↔ ∃ a, x = .ok a ∧ f a = .ok b := by
  cases x with
  | error e => simp [Bind.bind, Except.bind]
  | ok a => simp [Bind.bind, Except.bind]

@[simp] theorem exok_bind {α β : Type} (a : α) (f : α → Except PyErr β) :
    (Except.ok a >>= f) = f a := rfl

@[simp] theorem exerr_bind {α β : Type} (e : PyErr) (f : α → Except PyErr β) :
    ((Except.error e : Except PyErr α) >>= f) = .error e := rfl

/-- A successful `mapM` preserves length. -/
theorem mapM_ok_length {α β : Type} (f : α → Except PyErr β) :
    ∀ (xs : List α) (l : List β), xs.mapM f = .ok l → l.length = xs.length := by
  intro xs
  induction xs with
  | nil =>
    intro l h
    simp [List.mapM, List.mapM.loop, pure, Except.pure] at h
    simp [← h]
  | cons x xs ih =>
    intro l h
    rw [List.mapM_cons] at h
    rw [exbind_ok] at h
    obtain ⟨y, _, h⟩ := h
    rw [exbind_ok] at h
    obtain ⟨ys, hys, h⟩ := h
    simp [pure, Except.pure] at h
    simp [← h, ih ys hys]

@[simp] theorem jEq_num (a b : Int) : jEq (.num a) (.num b) = (a == b) := rfl

@[simp] theorem jGe_num (a b : Int) :
    jGe (.num a) (.num b) = .ok (b ≤ a) := rfl

@[simp] theorem jAdd1_num (a : Int) : jAdd1 (.num a) = .ok (.num (a + 1)) := rfl

/-! ### Claims -/

/-- After the `("date_time", "dateTime")` step of the renaming loop, no
`dateTime` key remains. -/
theorem ukStep_dateTime_none (kw : Dict) :
    dget (ukStep kw ("date_time", "dateTime")) "dateTime" = none := by
  unfold ukStep
  by_cases h : (dget kw "dateTime").isSome ∧ ("dateTime" : String) ≠ "date_time"
  · rw [if_pos h, dget_derase, if_pos rfl]
  · rw [if_neg h]
    have h2 : ("dateTime" : String) ≠ "date_time" := by decide
    have h3 : ¬ (dget kw "dateTime").isSome := fun hs => h ⟨hs, h2⟩
    cases hd : dget kw "dateTime" with
    | none => rfl
    | some v => exact absurd (by simp [hd]) h3

/-- A renaming step whose target key is not `dateTime` never introduces
a `dateTime` key. -/
theorem ukStep_preserves_no_dateTime (e : String × String)
    (he : e.1 ≠ "dateTime") (kw : Dict)
    (h : dget kw "dateTime" = none) :
    dget (ukStep kw e) "dateTime" = none := by
  unfold ukStep
  by_cases hg : (dget kw e.2).isSome ∧ e.2 ≠ e.1
  · rw [if_pos hg, dget_derase]
    by_cases hc : e.2 = "dateTime"
    · rw [if_pos hc]
    · rw [if_neg hc, dget_dset, if_neg he]
      exact h
  · rw [if_neg hg]
    exact h

theorem ukFoldSteps_preserve_no_dateTime :
    ∀ (L : List (String × String)), (∀ e ∈ L, e.1 ≠ "dateTime") →
      ∀ kw, dget kw "dateTime" = none →
        dget (L.foldl ukStep kw) "dateTime" = none := by
  intro L
  induction L with
  | nil => intro _ kw h; exact h
  | cons e L ih =>
    intro hL kw h
    rw [List.foldl_cons]
    exact ih (fun e' he' => hL e' (List.mem_cons_of_mem e he'))
      (ukStep kw e)
      (ukStep_preserves_no_dateTime e (hL e (List.mem_cons_self e L)) kw h)

/-- The renaming loop of `_Util.update_kwargs` always leaves the dict
without a `dateTime` key: the `("date_time", "dateTime")` table entry
renames it away before the loop ends, so the timestamp-parsing branch
that follows the loop is unreachable. -/
theorem ukFold_dateTime_none (kw : Dict) :
    dget (ukFold kw) "dateTime" = none := by
  have hsplit : attrMap
      = attrMap.take 12 ++ ("date_time", "dateTime") :: attrMap.drop 13 := by
    rfl
  unfold ukFold
  rw [hsplit, List.foldl_append, List.foldl_cons]
  exact ukFoldSteps_preserve_no_dateTime (attrMap.drop 13) (by decide) _
    (ukStep_dateTime_none _)

/-- Consequence: `_Util.update_kwargs` is just the renaming loop — the
`dateTime` branch never runs, so it never parses and never raises. -/
theorem updateKwargs_eq_fold (kw : Dict) :
    updateKwargs kw = .ok (ukFold kw) := by
  unfold updateKwargs
  rw [ukFold_dateTime_none]
  rfl

/-- **C10.** Constructing `ApiException(url, params, response)` deletes
the `apikey` entry from the caller's params dict (the stored parameters
are that same mutated dict), leaves every other entry unchanged, and
raises `KeyError` when `apikey` is absent; consequently the parameters
stored on the exception never contain the credential. -/
theorem claim_C10_apiexception_redacts :
    (∀ (url : String) (params response : Dict) (v errs : JVal),
      dget params "apikey" = some v →
      dget response "errors" = some errs →
      apiExceptionInit url params response
          = .ok (⟨url, derase params "apikey", errs⟩, derase params "apikey")
        ∧ dget (derase params "apikey") "apikey" = none
        ∧ (∀ k, k ≠ "apikey" → dget (derase params "apikey") k = dget params k))
    ∧ (∀ (url : String) (params response : Dict),
      dget params "apikey" = none →
      apiExceptionInit url params response = .error (.keyError "apikey")) := by
  constructor
  · intro url params response v errs hkey herr
    refine ⟨?_, ?_, ?_⟩
    · unfold apiExceptionInit
      rw [hkey, herr]
    · rw [dget_derase]
      simp
    · intro k hk
      have hne : ¬ ("apikey" = k) := fun h => hk h.symm
      rw [dget_derase, if_neg hne]
  · intro url params response hkey
    unfold apiExceptionInit
    rw [hkey]

/-- Witness for C10 at a concrete params dict. -/
theorem claim_C10_witness :
    apiExceptionInit "https://u" [("apikey", .str "secret"), ("size", .str "2")]
        [("errors", .arr [])]
      = .ok (⟨"https://u", [("size", .str "2")], .arr []⟩, [("size", .str "2")])
    ∧ apiExceptionInit "https://u" [("size", .str "2")] [("errors", .arr [])]
      = .error (.keyError "apikey") := by
  constructor
  · exact (claim_C10_apiexception_redacts.1 "https://u"
      [("apikey", .str "secret"), ("size", .str "2")] [("errors", .arr [])]
      (.str "secret") (.arr []) rfl rfl).1
  · exact claim_C10_apiexception_redacts.2 "https://u"
      [("size", .str "2")] [("errors", .arr [])] rfl

/-- Helper for C8: a successfully constructed page's entity list is the
result of decoding the `_embedded` block (default empty dict). -/
theorem pageOf_ok_items {kw : Dict} {p : CPage} (h : pageOf kw = .ok p) :
    pageItems ((dget kw "_embedded").getD (.obj [])) = .ok p.items := by
  unfold pageOf at h
  cases hpg : dget kw "page" with
  | none => rw [hpg] at h; simp at h
  | some pg =>
    rw [hpg] at h
    cases hlk : dget kw "_links" with
    | none => rw [hlk] at h; simp at h
    | some lk =>
      rw [hlk] at h
      simp only [exok_bind, pure_bind] at h
      rw [exbind_ok] at h
      obtain ⟨hn, _, h⟩ := h
      cases hn with
      | false =>
        simp only [Bool.false_eq_true, if_false] at h
        rw [exbind_ok] at h
        obtain ⟨num, _, h⟩ := h
        rw [exbind_ok] at h
        obtain ⟨sz, _, h⟩ := h
        rw [exbind_ok] at h
        obtain ⟨te, _, h⟩ := h
        rw [exbind_ok] at h
        obtain ⟨tp, _, h⟩ := h
        rw [exbind_ok] at h
        obtain ⟨sv, _, h⟩ := h
        rw [exbind_ok] at h
        obtain ⟨sh, _, h⟩ := h
        rw [exbind_ok] at h
        obtain ⟨items, hitems, h⟩ := h
        simp only [pure, Except.pure, Except.ok.injEq] at h
        rw [← h]
        exact hitems
      | true =>
        simp only [if_true] at h
        rw [exbind_ok] at h
        obtain ⟨nv, _, h⟩ := h
        rw [exbind_ok] at h
        obtain ⟨nh, _, h⟩ := h
        rw [exbind_ok] at h
        obtain ⟨num, _, h⟩ := h
        rw [exbind_ok] at h
        obtain ⟨sz, _, h⟩ := h
        rw [exbind_ok] at h
        obtain ⟨te, _, h⟩ := h
        rw [exbind_ok] at h
        obtain ⟨tp, _, h⟩ := h
        rw [exbind_ok] at h
        obtain ⟨sv, _, h⟩ := h
        rw [exbind_ok] at h
        obtain ⟨sh, _, h⟩ := h
        rw [exbind_ok] at h
        obtain ⟨items, hitems, h⟩ := h
        simp only [pure, Except.pure, Except.ok.injEq] at h
        rw [← h]
        exact hitems

/-- **C8 (amended).** The entity list of a constructed page is exactly
one decoded entity per element of the embedded array; the declared
`size` field is never consulted, so nothing bounds the list length by
the page size. -/
theorem claim_C8_amended :
    ∀ (kw : Dict) (p : CPage) (emb : Dict) (xs : List JVal),
      pageOf kw = .ok p →
      dget kw "_embedded" = some (.obj emb) →
      dget emb "events" = none →
      dget emb "venues" = none →
      dget emb "attractions" = some (.arr xs) →
      p.items.length = xs.length := by
  intro kw p emb xs h hemb he hv ha
  have hi := pageOf_ok_items h
  rw [hemb] at hi
  simp only [Option.getD_some] at hi
  unfold pageItems at hi
  simp only [jHasKey, he, hv, ha, Option.isSome_none, Option.isSome_some,
    exok_bind, Bool.false_eq_true, if_false, if_true,
    jGetItem, jIterList] at hi
  rw [exbind_ok] at hi
  obtain ⟨l, hl, hi⟩ := hi
  simp only [pure, Except.pure, Except.ok.injEq] at hi
  rw [← hi]
  simp [mapM_ok_length _ xs l hl]

/-- **C8 (counterexample).** A response declaring `size = 1` whose
embedded block carries two attractions yields a page whose entity list
has length 2 — exceeding the declared page size, contrary to the
claimed invariant. -/
theorem claim_C8_counterexample :
    (pageOf [("page", .obj [("number", .num 0), ("size", .num 1),
                ("totalElements", .num 2), ("totalPages", .num 2)]),
             ("_links", .obj [("self", .obj [("href", .str "/x")])]),
             ("_embedded", .obj [("attractions", .arr [.obj [], .obj []])])]
       ).map (fun p => (p.size, p.items.length))
      = .ok (.num 1, 2) := by
  rfl

/-- Witness for C8 at the same concrete response. -/
theorem claim_C8_witness :
    (pageOf [("page", .obj [("number", .num 0), ("size", .num 1),
                ("totalElements", .num 2), ("totalPages", .num 2)]),
             ("_links", .obj [("self", .obj [("href", .str "/x")])]),
             ("_embedded", .obj [("attractions", .arr [.obj [], .obj []])])]
       ).map (fun p => p.items.length) = .ok 2 := by
  have := claim_C8_amended
    [("page", .obj [("number", .num 0), ("size", .num 1),
        ("totalElements", .num 2), ("totalPages", .num 2)]),
     ("_links", .obj [("self", .obj [("href", .str "/x")])]),
     ("_embedded", .obj [("attractions", .arr [.obj [], .obj []])])]
    ⟨.num 0, .num 1, .num 2, .num 2, .str "/x", none,
     [.att ⟨.null, .null, .null, .null, none, none, []⟩,
      .att ⟨.null, .null, .null, .null, none, none, []⟩]⟩
    [("attractions", .arr [.obj [], .obj []])]
    [.obj [], .obj []]
    rfl rfl rfl rfl rfl
  simp only [List.length_cons, List.length_nil] at this
  rfl

set_option maxRecDepth 40000 in
/-- **C5.** The claimed timestamp handling does not happen: the renaming
loop of `_Util.update_kwargs` moves any `dateTime` entry to the
`date_time` key before the `if 'dateTime' in kwargs` check runs, so
`format_utc_timestamp` is unreachable.  A well-formed timestamp is kept
as a raw string (never parsed into an instant), an empty string is kept
as an empty string under `date_time` (not left absent), and an
unparseable non-empty string raises no error.  The last conjunct shows
what the dead parser would return — a naive (not timezone-aware)
datetime. -/
theorem claim_C5_datetime_parse_dead :
    (∀ kw : Dict, updateKwargs kw = .ok (ukFold kw)
        ∧ dget (ukFold kw) "dateTime" = none)
    ∧ updateKwargs [("dateTime", .str "2019-04-01T19:00:00Z")]
        = .ok [("date_time", .str "2019-04-01T19:00:00Z")]
    ∧ updateKwargs [("dateTime", .str "")] = .ok [("date_time", .str "")]
    ∧ updateKwargs [("dateTime", .str "not a timestamp")]
        = .ok [("date_time", .str "not a timestamp")]
    ∧ ntDecode startFields (.obj [("dateTime", .str "not a timestamp")])
        = .ok (some [("local_date", .null), ("local_time", .null),
                     ("date_time", .str "not a timestamp"),
                     ("date_tbd", .null), ("date_tba", .null),
                     ("time_tba", .null), ("no_specific_time", .null)])
    ∧ parseTs "2019-04-01T19:00:00Z" = .ok (.datetime 2019 4 1 19 0 0) := by
  refine ⟨fun kw => ⟨updateKwargs_eq_fold kw, ukFold_dateTime_none kw⟩,
    rfl, rfl, rfl, rfl, rfl⟩

/-- Helper for C1/C2: whenever the page counter has not reached
`end_page` (and the initial page was already yielded), `next()`
dereferences the `link_next` property value — there is no other guard
of any kind before the fetch. -/
theorem nextS_fetches (fetch : List Char → Dict) (st : IterState)
    (m c e : Int)
    (hm : st.page.number = .num m) (hc : st.currentPage = .num c)
    (he : st.endPage = .num e) (hne : m ≠ c) (hlt : c < e) :
    (nextS fetch st).2 = [linkNextStr st.page.linkNextRaw]
    ∧ (nextS fetch st).1 ≠ .ok .stopIter := by
  unfold nextS
  rw [hm, hc, he]
  simp only [jEq_num, jGe_num, jAdd1_num]
  have h1 : (m == c) = false := by simp [hne]
  have h2 : decide (e ≤ c) = false := by simp; omega
  rw [h1, h2]
  simp only [Bool.false_eq_true, if_false]
  cases hp : pageOf (fetch (linkNextStr st.page.linkNextRaw)) with
  | error err => simp
  | ok p => simp

/-- **C1 (amended).** The driver has no depth-ceiling check: whenever
the initial page has been yielded and the page counter has not reached
`end_page` (`total_pages`), the advancement dereferences the page's
next-link property value — regardless of `number * size`, and in
particular also when `number * size >= 1000`.  Iteration stops only via
the `current_page >= end_page` counter test. -/
theorem claim_C1_amended :
    ∀ (fetch : List Char → Dict) (st : IterState) (m c e : Int),
      st.page.number = .num m →
      st.currentPage = .num c →
      st.endPage = .num e →
      m ≠ c → c < e →
      (nextS fetch st).2 = [linkNextStr st.page.linkNextRaw]
      ∧ (nextS fetch st).1 ≠ .ok .stopIter :=
  fun fetch st m c e hm hc he hne hlt =>
    nextS_fetches fetch st m c e hm hc he hne hlt

set_option maxRecDepth 40000 in
/-- **C1 (counterexample).** A page with `number = 50`, `size = 20`
(so `number * size = 1000`, at the claimed depth ceiling) that still
reports a next link: after the page has been yielded
(`current_page = 51 < end_page = 52`), advancing the iterator performs
a `requests.get` of the next link — the claimed stop-without-fetching
does not happen. -/
theorem claim_C1_counterexample :
    (nextS (fun _ => [])
        ⟨⟨.num 50, .num 20, .num 1040, .num 52, .str "/self",
          some (.str "/events?page=51&size=20"), []⟩,
         .num 50, .num 51, .num 52⟩).2
      = ["https://app.ticketmaster.com/events?page=51&size=20".data]
    ∧ (50 : Int) * 20 ≥ 1000 := ⟨rfl, by norm_num⟩

set_option maxRecDepth 40000 in
/-- Witness for C1 at the concrete depth-exceeding state. -/
theorem claim_C1_witness :
    (nextS (fun _ => [])
        ⟨⟨.num 50, .num 20, .num 1040, .num 52, .str "/self",
          some (.str "/events?page=51&size=20"), []⟩,
         .num 50, .num 51, .num 52⟩).2
      = [linkNextStr (some (.str "/events?page=51&size=20"))]
    ∧ (nextS (fun _ => [])
        ⟨⟨.num 50, .num 20, .num 1040, .num 52, .str "/self",
          some (.str "/events?page=51&size=20"), []⟩,
         .num 50, .num 51, .num 52⟩).1 ≠ .ok .stopIter :=
  claim_C1_amended (fun _ => [])
    ⟨⟨.num 50, .num 20, .num 1040, .num 52, .str "/self",
      some (.str "/events?page=51&size=20"), []⟩,
     .num 50, .num 51, .num 52⟩
    50 51 52 rfl rfl rfl (by decide) (by decide)

set_option maxRecDepth 40000 in
/-- **C2.** When a mid-traversal page arrives without a `next` link
while `total_pages` still implies more pages
(`current_page < end_page`), the next advancement does **not** end the
iteration: because the `link_next` property formats `None` into the
base URL and so never returns `None`, the missing-link guard in
`next()` is dead, and the advancement issues a fetch of
`https://app.ticketmaster.comNone`. -/
theorem claim_C2_missing_next_fetches_none_url :
    ∀ (fetch : List Char → Dict) (st : IterState) (m c e : Int),
      st.page.linkNextRaw = none →
      st.page.number = .num m →
      st.currentPage = .num c →
      st.endPage = .num e →
      m ≠ c → c < e →
      (nextS fetch st).2 = ["https://app.ticketmaster.comNone".data]
      ∧ (nextS fetch st).1 ≠ .ok .stopIter
      ∧ (∀ raw : Option JVal, pageLinkNextOpt raw ≠ none) := by
  intro fetch st m c e hraw hm hc he hne hlt
  have h := nextS_fetches fetch st m c e hm hc he hne hlt
  rw [hraw] at h
  have hlnk : linkNextStr none = "https://app.ticketmaster.comNone".data := rfl
  rw [hlnk] at h
  exact ⟨h.1, h.2, fun raw => by simp [pageLinkNextOpt]⟩

set_option maxRecDepth 40000 in
/-- Witness for C2: traversal state after fetching page 1 of 3 whose
response had no `next` link; the counter (2) is still below
`end_page` (3). -/
theorem claim_C2_witness :
    (nextS (fun _ => [])
        ⟨⟨.num 1, .num 20, .num 50, .num 3, .str "/self", none, []⟩,
         .num 0, .num 2, .num 3⟩).2
      = ["https://app.ticketmaster.comNone".data]
    ∧ (nextS (fun _ => [])
        ⟨⟨.num 1, .num 20, .num 50, .num 3, .str "/self", none, []⟩,
         .num 0, .num 2, .num 3⟩).1 ≠ .ok .stopIter
    ∧ (∀ raw : Option JVal, pageLinkNextOpt raw ≠ none) :=
  claim_C2_missing_next_fetches_none_url (fun _ => [])
    ⟨⟨.num 1, .num 20, .num 50, .num 3, .str "/self", none, []⟩,
     .num 0, .num 2, .num 3⟩
    1 2 3 rfl rfl rfl rfl (by decide) (by decide)

set_option maxRecDepth 40000 in
/-- **C6.** For a valid single-page response (`total_pages = 1`,
non-negative integer page number, no `next` link): the iterator yields
exactly one page — the initial page, unconditionally, even with zero
entities — and the following advancement raises `StopIteration`; no
URL is ever fetched.  However, the page's next-link accessor does
**not** return "no value": it returns the base URL with the four
characters `None` appended. -/
theorem claim_C6_single_page_behavior :
    ∀ (kwargs : Dict) (p : CPage) (n : Int) (fetch : List Char → Dict),
      pageOf kwargs = .ok p →
      p.number = .num n →
      0 ≤ n →
      p.totalPages = .num 1 →
      p.linkNextRaw = none →
      mkIter kwargs = .ok ⟨p, .num n, .num n, .num 1⟩
      ∧ nextS fetch ⟨p, .num n, .num n, .num 1⟩
          = (.ok (.items p.items ⟨p, .num n, .num (n + 1), .num 1⟩), [])
      ∧ nextS fetch ⟨p, .num n, .num (n + 1), .num 1⟩ = (.ok .stopIter, [])
      ∧ pageLinkNextOpt p.linkNextRaw
          = some ("https://app.ticketmaster.comNone".data) := by
  intro kwargs p n fetch hok hn hn0 htp hraw
  refine ⟨?_, ?_, ?_, ?_⟩
  · unfold mkIter
    rw [hok, exok_bind, hn, htp]
    rfl
  · unfold nextS
    rw [hn]
    simp only [jEq_num, jAdd1_num, beq_self_eq_true, if_true]
  · unfold nextS
    rw [hn]
    have h1 : (n == n + 1) = false := by simp
    have h2 : decide ((1 : Int) ≤ n + 1) = true := by simp; omega
    simp only [jEq_num, jGe_num, h1, Bool.false_eq_true, if_false, h2]
  · rw [hraw]
    rfl

set_option maxRecDepth 40000 in
/-- Witness for C6 at a concrete empty single-page response. -/
theorem claim_C6_witness :
    mkIter [("page", .obj [("number", .num 0), ("size", .num 20),
              ("totalElements", .num 0), ("totalPages", .num 1)]),
            ("_links", .obj [("self", .obj [("href", .str "/x")])])]
      = .ok ⟨⟨.num 0, .num 20, .num 0, .num 1, .str "/x", none, []⟩,
             .num 0, .num 0, .num 1⟩
    ∧ nextS (fun _ => [])
        ⟨⟨.num 0, .num 20, .num 0, .num 1, .str "/x", none, []⟩,
         .num 0, .num 0, .num 1⟩
      = (.ok (.items [] ⟨⟨.num 0, .num 20, .num 0, .num 1, .str "/x", none, []⟩,
            .num 0, .num (0 + 1), .num 1⟩), [])
    ∧ nextS (fun _ => [])
        ⟨⟨.num 0, .num 20, .num 0, .num 1, .str "/x", none, []⟩,
         .num 0, .num (0 + 1), .num 1⟩
      = (.ok .stopIter, [])
    ∧ pageLinkNextOpt (none : Option JVal)
      = some ("https://app.ticketmaster.comNone".data) :=
  claim_C6_single_page_behavior
    [("page", .obj [("number", .num 0), ("size", .num 20),
       ("totalElements", .num 0), ("totalPages", .num 1)]),
     ("_links", .obj [("self", .obj [("href", .str "/x")])])]
    ⟨.num 0, .num 20, .num 0, .num 1, .str "/x", none, []⟩
    0 (fun _ => []) rfl rfl (by decide) rfl rfl

/-- **C3 (amended).** Page construction requires the `page` block, its
four metadata fields, and `_links`/`self`/`href`; the absence of any of
them fails with Python's generic `KeyError` naming the missing key —
the library defines no distinct `MalformedResponse` error kind.  The
optional parts (`_embedded` block, `next` link) may be absent without
error. -/
theorem claim_C3_amended :
    (∀ kw : Dict, dget kw "page" = none →
      pageOf kw = .error (.keyError "page"))
    ∧ (∀ (kw : Dict) (pg : JVal), dget kw "page" = some pg →
      dget kw "_links" = none →
      pageOf kw = .error (.keyError "_links"))
    ∧ (∀ (kw : Dict) (pd lks : Dict),
      dget kw "page" = some (.obj pd) →
      dget kw "_links" = some (.obj lks) →
      dget lks "next" = none →
      dget pd "number" = none →
      pageOf kw = .error (.keyError "number"))
    ∧ (∀ (kw : Dict) (pd lks : Dict) (nv : JVal),
      dget kw "page" = some (.obj pd) →
      dget kw "_links" = some (.obj lks) →
      dget lks "next" = none →
      dget pd "number" = some nv →
      dget pd "size" = none →
      pageOf kw = .error (.keyError "size"))
    ∧ (∀ (kw : Dict) (pd lks : Dict) (nv sv : JVal),
      dget kw "page" = some (.obj pd) →
      dget kw "_links" = some (.obj lks) →
      dget lks "next" = none →
      dget pd "number" = some nv →
      dget pd "size" = some sv →
      dget pd "totalElements" = none →
      pageOf kw = .error (.keyError "totalElements"))
    ∧ (∀ (kw : Dict) (pd lks : Dict) (nv sv tev : JVal),
      dget kw "page" = some (.obj pd) →
      dget kw "_links" = some (.obj lks) →
      dget lks "next" = none →
      dget pd "number" = some nv →
      dget pd "size" = some sv →
      dget pd "totalElements" = some tev →
      dget pd "totalPages" = none →
      pageOf kw = .error (.keyError "totalPages"))
    ∧ (∀ (kw : Dict) (pd lks : Dict) (nv sv tev tpv : JVal),
      dget kw "page" = some (.obj pd) →
      dget kw "_links" = some (.obj lks) →
      dget lks "next" = none →
      dget pd "number" = some nv →
      dget pd "size" = some sv →
      dget pd "totalElements" = some tev →
      dget pd "totalPages" = some tpv →
      dget lks "self" = none →
      pageOf kw = .error (.keyError "self"))
    ∧ (∀ (kw : Dict) (pd lks sd : Dict) (nv sv tev tpv hv : JVal),
      dget kw "page" = some (.obj pd) →
      dget kw "_links" = some (.obj lks) →
      dget lks "next" = none →
      dget pd "number" = some nv →
      dget pd "size" = some sv →
      dget pd "totalElements" = some tev →
      dget pd "totalPages" = some tpv →
      dget lks "self" = some (.obj sd) →
      dget sd "href" = some hv →
      dget kw "_embedded" = none →
      pageOf kw = .ok ⟨nv, sv, tev, tpv, hv, none, []⟩) := by
  refine ⟨?_, ?_, ?_, ?_, ?_, ?_, ?_, ?_⟩
  · intro kw h
    unfold pageOf
    rw [h]
    rfl
  · intro kw pg hpg h
    unfold pageOf
    rw [hpg, h]
    rfl
  · intro kw pd lks hpg hlk hnx h
    unfold pageOf
    rw [hpg, hlk]
    simp only [exok_bind, pure_bind, jHasKey, hnx, Option.isSome_none,
      Bool.false_eq_true, if_false, jGetItem, h]
    rfl
  · intro kw pd lks nv hpg hlk hnx hn h
    unfold pageOf
    rw [hpg, hlk]
    simp only [exok_bind, pure_bind, jHasKey, hnx, Option.isSome_none,
      Bool.false_eq_true, if_false, jGetItem, hn, h]
    rfl
  · intro kw pd lks nv sv hpg hlk hnx hn hs h
    unfold pageOf
    rw [hpg, hlk]
    simp only [exok_bind, pure_bind, jHasKey, hnx, Option.isSome_none,
      Bool.false_eq_true, if_false, jGetItem, hn, hs, h]
    rfl
  · intro kw pd lks nv sv tev hpg hlk hnx hn hs hte h
    unfold pageOf
    rw [hpg, hlk]
    simp only [exok_bind, pure_bind, jHasKey, hnx, Option.isSome_none,
      Bool.false_eq_true, if_false, jGetItem, hn, hs, hte, h]
    rfl
  · intro kw pd lks nv sv tev tpv hpg hlk hnx hn hs hte htp h
    unfold pageOf
    rw [hpg, hlk]
    simp only [exok_bind, pure_bind, jHasKey, hnx, Option.isSome_none,
      Bool.false_eq_true, if_false, jGetItem, hn, hs, hte, htp, h]
    rfl
  · intro kw pd lks sd nv sv tev tpv hv hpg hlk hnx hn hs hte htp hself
      hhref hemb
    unfold pageOf
    rw [hpg, hlk]
    simp only [exok_bind, pure_bind, jHasKey, hnx, Option.isSome_none,
      Bool.false_eq_true, if_false, jGetItem, hn, hs, hte, htp, hself,
      hhref, hemb]
    rfl

/-- **C3 (counterexample).** A response whose `page` block lacks
`totalPages` fails with the builtin `KeyError` — the very same error an
ordinary missing-key subscript raises — not a distinct
`MalformedResponse` error kind (no such kind exists in the library). -/
theorem claim_C3_counterexample :
    pageOf [("page", .obj [("number", .num 0), ("size", .num 20),
              ("totalElements", .num 0)]),
            ("_links", .obj [("self", .obj [("href", .str "/x")])])]
      = .error (.keyError "totalPages")
    ∧ jGetItem (.obj []) "totalPages" = .error (.keyError "totalPages") :=
  ⟨rfl, rfl⟩

/-- Witness for C3: the missing-`totalPages` case and the
minimal-success case at concrete responses. -/
theorem claim_C3_witness :
    pageOf [("page", .obj [("number", .num 0), ("size", .num 20),
              ("totalElements", .num 0)]),
            ("_links", .obj [("self", .obj [("href", .str "/x")])])]
      = .error (.keyError "totalPages")
    ∧ pageOf [("page", .obj [("number", .num 0), ("size", .num 20),
                ("totalElements", .num 0), ("totalPages", .num 1)]),
              ("_links", .obj [("self", .obj [("href", .str "/x")])])]
      = .ok ⟨.num 0, .num 20, .num 0, .num 1, .str "/x", none, []⟩ := by
  constructor
  · exact (claim_C3_amended.2.2.2.2.2.1)
      [("page", .obj [("number", .num 0), ("size", .num 20),
         ("totalElements", .num 0)]),
       ("_links", .obj [("self", .obj [("href", .str "/x")])])]
      [("number", .num 0), ("size", .num 20), ("totalElements", .num 0)]
      [("self", .obj [("href", .str "/x")])]
      (.num 0) (.num 20) (.num 0)
      rfl rfl rfl rfl rfl rfl rfl
  · exact (claim_C3_amended.2.2.2.2.2.2.2)
      [("page", .obj [("number", .num 0), ("size", .num 20),
         ("totalElements", .num 0), ("totalPages", .num 1)]),
       ("_links", .obj [("self", .obj [("href", .str "/x")])])]
      [("number", .num 0), ("size", .num 20), ("totalElements", .num 0),
       ("totalPages", .num 1)]
      [("self", .obj [("href", .str "/x")])]
      [("href", .str "/x")]
      (.num 0) (.num 20) (.num 0) (.num 1) (.str "/x")
      rfl rfl rfl rfl rfl rfl rfl rfl rfl rfl

/-- Top-level JSON keys read by `Event.from_json`. -/
def eventJsonKeys : List String :=
  ["name", "distance", "units", "locale", "description", "url", "test",
   "info", "id", "promoter", "dates", "sales", "images", "place",
   "priceRanges", "classifications", "_embedded", "_links"]

/-- Top-level JSON keys read by `Venue.from_json`. -/
def venueJsonKeys : List String :=
  ["name", "url", "type", "distance", "units", "locale", "description",
   "additionalInfo", "postalCode", "timezone", "currency", "parkingDetail",
   "test", "social", "id", "city", "state", "country", "address",
   "location", "generalInfo", "boxOfficeInfo", "accessibleSeatingDetail",
   "images", "markets", "dmas", "_links"]

/-- Top-level JSON keys read by `Attraction.from_json`. -/
def attractionJsonKeys : List String :=
  ["id", "name", "url", "test", "images", "classifications", "_links"]

set_option maxRecDepth 40000 in
/-- **C4 (amended).** Extra fields at the **top level** of an
Event/Venue/Attraction JSON object are ignored: each `from_json` depends
only on the lookups of its recognized keys, so adding unknown top-level
fields cannot change the decoded object.  But inside any sub-object
decoded via `_Util.namedtuple` (images, price ranges, promoter, city,
state, country, address, location, ...), an unrecognized field is passed
to the namedtuple constructor as an unexpected keyword argument and
raises `TypeError` — decoding does not succeed and does not equal the
decoding with the extra field removed. -/
theorem claim_C4_amended :
    (∀ d d' : Dict, (∀ k ∈ eventJsonKeys, dget d k = dget d' k) →
      eventFromJson (.obj d) = eventFromJson (.obj d'))
    ∧ (∀ d d' : Dict, (∀ k ∈ venueJsonKeys, dget d k = dget d' k) →
      venueFromJson (.obj d) = venueFromJson (.obj d'))
    ∧ (∀ d d' : Dict, (∀ k ∈ attractionJsonKeys, dget d k = dget d' k) →
      attractionFromJson (.obj d) = attractionFromJson (.obj d'))
    ∧ ntDecode imageFields (.obj [("url", .str "u"), ("junk", .num 1)])
      = .error (.typeError "unexpected keyword argument") := by
  refine ⟨?_, ?_, ?_, rfl⟩
  · intro d d' h
    simp only [eventFromJson, dgetD, assignLinks]
    rw [h "promoter" (by decide), h "dates" (by decide),
      h "sales" (by decide), h "images" (by decide), h "place" (by decide),
      h "priceRanges" (by decide), h "classifications" (by decide),
      h "_embedded" (by decide), h "_links" (by decide),
      h "name" (by decide), h "distance" (by decide), h "units" (by decide),
      h "locale" (by decide), h "description" (by decide),
      h "url" (by decide), h "test" (by decide), h "info" (by decide),
      h "id" (by decide)]
  · intro d d' h
    simp only [venueFromJson, dgetD, assignLinks]
    rw [h "city" (by decide), h "state" (by decide), h "country" (by decide),
      h "address" (by decide), h "location" (by decide),
      h "generalInfo" (by decide), h "boxOfficeInfo" (by decide),
      h "images" (by decide), h "markets" (by decide), h "dmas" (by decide),
      h "_links" (by decide), h "name" (by decide), h "url" (by decide),
      h "type" (by decide), h "distance" (by decide), h "units" (by decide),
      h "locale" (by decide), h "description" (by decide),
      h "additionalInfo" (by decide), h "postalCode" (by decide),
      h "timezone" (by decide), h "currency" (by decide),
      h "parkingDetail" (by decide), h "test" (by decide),
      h "social" (by decide), h "id" (by decide),
      h "accessibleSeatingDetail" (by decide)]
  · intro d d' h
    simp only [attractionFromJson, dgetD, assignLinks]
    rw [h "images" (by decide), h "classifications" (by decide),
      h "_links" (by decide), h "id" (by decide), h "name" (by decide),
      h "url" (by decide), h "test" (by decide)]

set_option maxRecDepth 40000 in
/-- **C4 (counterexample).** An image carrying one extra field makes
`Attraction.from_json` raise `TypeError` instead of succeeding: the
claim's "succeeds without error and equals the decoding with extra
fields removed" fails for fields inside `_Util.namedtuple`-decoded
sub-objects. -/
theorem claim_C4_counterexample :
    attractionFromJson (.obj [("name", .str "X"),
        ("images", .arr [.obj [("url", .str "u"), ("someNewField", .num 1)]])])
      = .error (.typeError "unexpected keyword argument")
    ∧ attractionFromJson (.obj [("name", .str "X"),
        ("images", .arr [.obj [("url", .str "u")]])])
      = .ok ⟨.null, .str "X", .null, .null,
          some [some [("url", .str "u"), ("ratio", .null), ("width", .null),
            ("height", .null), ("fallback", .null), ("attribution", .null)]],
          none, []⟩ := ⟨rfl, rfl⟩

set_option maxRecDepth 40000 in
/-- Witness for C4: adding an unknown top-level field to a concrete
attraction JSON object leaves the decoding unchanged. -/
theorem claim_C4_witness :
    attractionFromJson (.obj [("someNewField", .bool true),
        ("name", .str "X")])
      = attractionFromJson (.obj [("name", .str "X")]) :=
  claim_C4_amended.2.2.1
    [("someNewField", .bool true), ("name", .str "X")]
    [("name", .str "X")]
    (by intro k hk; fin_cases hk <;> rfl)

/-- Characterization of the `update_kwargs` renaming loop over any
table `L` with distinct keys, distinct values, and no non-identity key
occurring among the values: provided none of the non-identity target
keys is already present, each target key ends up holding the value that
sat under its source key, and keys untouched by the table are
unchanged. -/
theorem ukFold_char (L : List (String × String))
    (h1 : (L.map Prod.fst).Nodup)
    (h2 : (L.map Prod.snd).Nodup)
    (h3 : ∀ e ∈ L, e.1 ≠ e.2 → e.1 ∉ L.map Prod.snd) :
    ∀ kw : Dict, (∀ e ∈ L, e.1 ≠ e.2 → dget kw e.1 = none) →
      (∀ e ∈ L, dget (L.foldl ukStep kw) e.1 = dget kw e.2)
      ∧ (∀ x, x ∉ L.map Prod.fst → x ∉ L.map Prod.snd →
          dget (L.foldl ukStep kw) x = dget kw x) := by
  induction L with
  | nil => intro kw _; exact ⟨fun e he => absurd he (List.not_mem_nil e), fun x _ _ => rfl⟩
  | cons e L ih =>
    obtain ⟨s, c⟩ := e
    intro kw hkw
    rw [List.map_cons, List.nodup_cons] at h1 h2
    obtain ⟨hs_nf, h1'⟩ := h1
    obtain ⟨hc_nv, h2'⟩ := h2
    have h3' : ∀ e ∈ L, e.1 ≠ e.2 → e.1 ∉ L.map Prod.snd := by
      intro e' he' hne hmem
      exact h3 e' (List.mem_cons_of_mem _ he') hne
        (by rw [List.map_cons]; exact List.mem_cons_of_mem _ hmem)
    rw [List.foldl_cons]
    by_cases hsc : s = c
    · -- identity entry: the guard `v != k` fails, the dict is unchanged
      have hstep : ukStep kw (s, c) = kw := by
        unfold ukStep
        rw [if_neg]
        rintro ⟨-, hne⟩
        exact hne hsc.symm
      rw [hstep]
      have hkw' : ∀ e ∈ L, e.1 ≠ e.2 → dget kw e.1 = none :=
        fun e' he' => hkw e' (List.mem_cons_of_mem _ he')
      obtain ⟨ihA, ihB⟩ := ih h1' h2' h3' kw hkw'
      subst hsc
      constructor
      · intro e' he'
        rcases List.mem_cons.mp he' with heq | hmem
        · rw [heq]
          exact ihB s hs_nf hc_nv
        · exact ihA e' hmem
      · intro x hx1 hx2
        rw [List.map_cons] at hx1 hx2
        exact ihB x (fun hm => hx1 (List.mem_cons_of_mem _ hm))
          (fun hm => hx2 (List.mem_cons_of_mem _ hm))
    · have hs_nv : s ∉ c :: L.map Prod.snd := by
        have := h3 (s, c) (List.mem_cons_self _ _) hsc
        rwa [List.map_cons] at this
      have hs_nv' : s ∉ L.map Prod.snd := fun hm => hs_nv (List.mem_cons_of_mem _ hm)
      have hs_ne_c : s ≠ c := hsc
      cases hget : dget kw c with
      | none =>
        -- `v in kwargs` fails: the step is a no-op, and both sides are absent
        have hstep : ukStep kw (s, c) = kw := by
          unfold ukStep
          rw [if_neg]
          rintro ⟨hsome, -⟩
          rw [hget] at hsome
          exact absurd hsome (by simp)
        rw [hstep]
        have hkw' : ∀ e ∈ L, e.1 ≠ e.2 → dget kw e.1 = none :=
          fun e' he' => hkw e' (List.mem_cons_of_mem _ he')
        obtain ⟨ihA, ihB⟩ := ih h1' h2' h3' kw hkw'
        constructor
        · intro e' he'
          rcases List.mem_cons.mp he' with heq | hmem
          · rw [heq]
            rw [ihB s hs_nf hs_nv']
            rw [hkw (s, c) (List.mem_cons_self _ _) hsc, hget]
          · exact ihA e' hmem
        · intro x hx1 hx2
          rw [List.map_cons] at hx1 hx2
          exact ihB x (fun hm => hx1 (List.mem_cons_of_mem _ hm))
            (fun hm => hx2 (List.mem_cons_of_mem _ hm))
      | some v =>
        have hstep : ukStep kw (s, c)
            = derase (dset kw s v) c := by
          unfold ukStep
          rw [if_pos ⟨by simp [hget], fun h => hsc h.symm⟩, hget]
          rfl
        rw [hstep]
        have hlook : ∀ y, dget (derase (dset kw s v) c) y
            = if c = y then none else if s = y then some v else dget kw y := by
          intro y
          rw [dget_derase, dget_dset]
        have hkw' : ∀ e' ∈ L, e'.1 ≠ e'.2 →
            dget (derase (dset kw s v) c) e'.1 = none := by
          intro e' he' hne
          rw [hlook]
          have hne_c : ¬ (c = e'.1) := by
            intro hcc
            exact h3 e' (List.mem_cons_of_mem _ he') hne
              (by rw [List.map_cons, ← hcc]; exact List.mem_cons_self _ _)
          have hne_s : ¬ (s = e'.1) := by
            intro hss
            have hm : e'.1 ∈ L.map Prod.fst := List.mem_map_of_mem Prod.fst he'
            rw [← hss] at hm
            exact hs_nf hm
          rw [if_neg hne_c, if_neg hne_s]
          exact hkw e' (List.mem_cons_of_mem _ he') hne
        obtain ⟨ihA, ihB⟩ := ih h1' h2' h3' (derase (dset kw s v) c) hkw'
        constructor
        · intro e' he'
          rcases List.mem_cons.mp he' with heq | hmem
          · rw [heq]
            rw [ihB s hs_nf hs_nv', hlook, if_neg (fun h => hsc h.symm),
              if_pos rfl, hget]
          · rw [ihA e' hmem, hlook]
            have hne_c : ¬ (c = e'.2) := by
              intro hcc
              have hm : e'.2 ∈ L.map Prod.snd := List.mem_map_of_mem Prod.snd hmem
              rw [← hcc] at hm
              exact hc_nv hm
            have hne_s : ¬ (s = e'.2) := by
              intro hss
              have hm : e'.2 ∈ L.map Prod.snd := List.mem_map_of_mem Prod.snd hmem
              rw [← hss] at hm
              exact hs_nv' hm
            rw [if_neg hne_c, if_neg hne_s]
        · intro x hx1 hx2
          rw [List.map_cons] at hx1 hx2
          have hx_s : ¬ (s = x) := fun h => hx1 (h ▸ List.mem_cons_self _ _)
          have hx_c : ¬ (c = x) := fun h => hx2 (h ▸ List.mem_cons_self _ _)
          rw [ihB x (fun hm => hx1 (List.mem_cons_of_mem _ hm))
              (fun hm => hx2 (List.mem_cons_of_mem _ hm)),
            hlook, if_neg hx_c, if_neg hx_s]

set_option maxRecDepth 40000 in
/-- **C9.** `attr_map` is a bijection on its domain (no two snake_case
attribute names map to the same API name, and no two entries share a
key), and for any JSON object whose keys all lie in the recognized API
name set, `_Util.update_kwargs` succeeds without parsing anything and
renaming back through the table recovers the original object: for every
table entry, the renamed dict read at the attribute name equals the
original dict read at the API name. -/
theorem claim_C9_roundtrip :
    (attrMap.map Prod.fst).Nodup
    ∧ (attrMap.map Prod.snd).Nodup
    ∧ (∀ kw : Dict,
        (∀ k ∈ dkeys kw, k ∈ attrMap.map Prod.snd) →
        updateKwargs kw = .ok (ukFold kw)
        ∧ ∀ e ∈ attrMap, dget (ukFold kw) e.1 = dget kw e.2) := by
  refine ⟨by decide, by decide, ?_⟩
  intro kw hkeys
  refine ⟨updateKwargs_eq_fold kw, ?_⟩
  have h3 : ∀ e ∈ attrMap, e.1 ≠ e.2 → e.1 ∉ attrMap.map Prod.snd := by
    decide
  have hkw : ∀ e ∈ attrMap, e.1 ≠ e.2 → dget kw e.1 = none := by
    intro e he hne
    apply dget_eq_none_of_not_mem
    intro hmem
    exact h3 e he hne (hkeys e.1 hmem)
  exact (ukFold_char attrMap (by decide) (by decide) h3 kw hkw).1

set_option maxRecDepth 40000 in
/-- Witness for C9: a concrete recognized-keys object (including a
`dateTime` entry) renames to snake_case and reads back unchanged. -/
theorem claim_C9_witness :
    updateKwargs [("stateCode", .str "GA"), ("dateTime", .str "t")]
      = .ok (ukFold [("stateCode", .str "GA"), ("dateTime", .str "t")])
    ∧ dget (ukFold [("stateCode", .str "GA"), ("dateTime", .str "t")])
        "state_code"
      = dget [("stateCode", .str "GA"), ("dateTime", .str "t")] "stateCode"
    ∧ dget (ukFold [("stateCode", .str "GA"), ("dateTime", .str "t")])
        "date_time"
      = dget [("stateCode", .str "GA"), ("dateTime", .str "t")] "dateTime" := by
  have h := (claim_C9_roundtrip.2.2
    [("stateCode", .str "GA"), ("dateTime", .str "t")]
    (by intro k hk; fin_cases hk <;> decide))
  exact ⟨h.1, h.2 ("state_code", "stateCode") (by decide),
    h.2 ("date_time", "dateTime") (by decide)⟩

/-! ### C7 infrastructure: what survives the brace-stripping scan -/

/-- `t` contains a brace-delimited substring with a non-empty
interior. -/
def hasBraceFrag (t : List Char) : Prop :=
  ∃ x w y, t = x ++ lbrace :: (w ++ rbrace :: y) ∧ w ≠ []

theorem takeWhile_not_nl_eq_self {cs : List Char} (h : '\n' ∉ cs) :
    cs.takeWhile (· ≠ '\n') = cs := by
  induction cs with
  | nil => rfl
  | cons c cs ih =>
    have hc : c ≠ '\n' := fun hc => h (hc ▸ List.mem_cons_self c cs)
    have hcs : '\n' ∉ cs := fun hm => h (List.mem_cons_of_mem c hm)
    simp [List.takeWhile, hc]
    intro x hx hh
    rw [hh] at hx
    exact hcs hx

theorem lastClose_none {p : List Char} (h : lastClose p = none) :
    rbrace ∉ p := by
  induction p with
  | nil => simp
  | cons c cs ih =>
    unfold lastClose at h
    cases hl : lastClose cs with
    | some j => rw [hl] at h; exact absurd h (by simp)
    | none =>
      rw [hl] at h
      by_cases hc : c = rbrace
      · rw [if_pos hc] at h; exact absurd h (by simp)
      · rw [if_neg hc] at h
        intro hm
        rcases List.mem_cons.mp hm with heq | hmem
        · exact hc heq.symm
        · exact ih hl hmem

theorem lastClose_some_zero {p : List Char} (h : lastClose p = some 0) :
    ∃ p', p = rbrace :: p' ∧ rbrace ∉ p' := by
  cases p with
  | nil => exact absurd h (by simp [lastClose])
  | cons c cs =>
    unfold lastClose at h
    cases hl : lastClose cs with
    | some j =>
      rw [hl] at h
      simp at h
    | none =>
      rw [hl] at h
      by_cases hc : c = rbrace
      · exact ⟨cs, by rw [hc], lastClose_none hl⟩
      · rw [if_neg hc] at h
        exact absurd h (by simp)

theorem greedyEnd_none_cases {cs : List Char} (h : greedyEnd cs = none)
    (hnl : '\n' ∉ cs) :
    rbrace ∉ cs ∨ ∃ cs', cs = rbrace :: cs' ∧ rbrace ∉ cs' := by
  unfold greedyEnd at h
  rw [takeWhile_not_nl_eq_self hnl] at h
  cases hl : lastClose cs with
  | none => exact Or.inl (lastClose_none hl)
  | some j =>
    rw [hl] at h
    by_cases hj : 1 ≤ j
    · simp [hj] at h
    · have hj0 : j = 0 := by omega
      rw [hj0] at hl
      exact Or.inr (lastClose_some_zero hl)

theorem pySubGo_sublist : ∀ (fuel : Nat) (s : List Char),
    List.Sublist (pySubGo fuel s) s := by
  intro fuel
  induction fuel with
  | zero =>
    intro s
    cases s with
    | nil => simp [pySubGo]
    | cons c cs => simp [pySubGo]
  | succ fuel ih =>
    intro s
    cases s with
    | nil => simp [pySubGo]
    | cons c cs =>
      unfold pySubGo
      by_cases hc : c = lbrace
      · rw [if_pos hc]
        cases hge : greedyEnd cs with
        | some j =>
          exact ((ih (cs.drop (j + 1))).trans (List.drop_sublist _ _)).cons c
        | none => exact (ih cs).cons₂ c
      · rw [if_neg hc]
        exact (ih cs).cons₂ c

theorem hasBraceFrag_cons {a : Char} {t : List Char}
    (h : hasBraceFrag (a :: t)) (ha : a ≠ lbrace) : hasBraceFrag t := by
  obtain ⟨x, w, y, heq, hw⟩ := h
  cases x with
  | nil =>
    simp only [List.nil_append] at heq
    obtain ⟨hhead, -⟩ := List.cons.inj heq
    exact absurd hhead ha
  | cons b x' =>
    rw [List.cons_append] at heq
    obtain ⟨-, ht⟩ := List.cons.inj heq
    exact ⟨x', w, y, ht, hw⟩

theorem hasBraceFrag_mem {t : List Char} (h : hasBraceFrag t) :
    lbrace ∈ t := by
  obtain ⟨x, w, y, heq, -⟩ := h
  rw [heq]
  exact List.mem_append_right x (List.mem_cons_self _ _)

theorem pySubGo_no_frag : ∀ (fuel : Nat) (s : List Char),
    s.length ≤ fuel → '\n' ∉ s → ¬ hasBraceFrag (pySubGo fuel s) := by
  intro fuel
  induction fuel with
  | zero =>
    intro s hlen _ hfrag
    have hs : s = [] := List.length_eq_zero.mp (Nat.le_zero.mp hlen)
    subst hs
    obtain ⟨x, w, y, heq, -⟩ := hfrag
    simp [pySubGo] at heq
  | succ fuel ih =>
    intro s hlen hnl hfrag
    cases s with
    | nil =>
      obtain ⟨x, w, y, heq, -⟩ := hfrag
      simp [pySubGo] at heq
    | cons c cs =>
      have hnl_cs : '\n' ∉ cs := fun hm => hnl (List.mem_cons_of_mem c hm)
      have hlen_cs : cs.length ≤ fuel := by
        simp only [List.length_cons] at hlen
        omega
      unfold pySubGo at hfrag
      by_cases hc : c = lbrace
      · rw [if_pos hc] at hfrag
        cases hge : greedyEnd cs with
        | some j =>
          rw [hge] at hfrag
          refine ih (cs.drop (j + 1)) ?_ ?_ hfrag
          · calc (cs.drop (j + 1)).length ≤ cs.length :=
                  by rw [List.length_drop]; omega
              _ ≤ fuel := hlen_cs
          · exact fun hm => hnl_cs (List.drop_subset _ _ hm)
        | none =>
          rw [hge] at hfrag
          obtain ⟨x, w, y, heq, hw⟩ := hfrag
          cases x with
          | cons b x' =>
            rw [List.cons_append] at heq
            obtain ⟨-, ht⟩ := List.cons.inj heq
            exact ih cs hlen_cs hnl_cs ⟨x', w, y, ht, hw⟩
          | nil =>
            simp only [List.nil_append] at heq
            obtain ⟨-, ht⟩ := List.cons.inj heq
            rcases greedyEnd_none_cases hge hnl_cs with hno | ⟨cs', hcs, hno'⟩
            · have hrb : rbrace ∈ pySubGo fuel cs := by
                rw [ht]
                exact List.mem_append_right w (List.mem_cons_self _ _)
              exact hno ((pySubGo_sublist fuel cs).subset hrb)
            · subst hcs
              cases fuel with
              | zero =>
                have : pySubGo 0 (rbrace :: cs') = [] := rfl
                rw [this] at ht
                exact absurd ht.symm (by simp)
              | succ f =>
                have hrb_ne : rbrace ≠ lbrace := by decide
                have hred : pySubGo (f + 1) (rbrace :: cs')
                    = rbrace :: pySubGo f cs' := by
                  conv_lhs => unfold pySubGo
                  rw [if_neg hrb_ne]
                rw [hred] at ht
                cases w with
                | nil => exact hw rfl
                | cons b w'' =>
                  rw [List.cons_append] at ht
                  obtain ⟨-, ht'⟩ := List.cons.inj ht
                  have hrb : rbrace ∈ pySubGo f cs' := by
                    rw [ht']
                    exact List.mem_append_right w'' (List.mem_cons_self _ _)
                  exact hno' ((pySubGo_sublist f cs').subset hrb)
      · rw [if_neg hc] at hfrag
        exact ih cs hlen_cs hnl_cs (hasBraceFrag_cons hfrag hc)

theorem replaceSortGo_bracefree : ∀ (fuel : Nat) (s : List Char),
    s.length ≤ fuel → lbrace ∉ s → replaceSortGo fuel s = s := by
  intro fuel
  induction fuel with
  | zero =>
    intro s hlen _
    have hs : s = [] := List.length_eq_zero.mp (Nat.le_zero.mp hlen)
    subst hs
    rfl
  | succ fuel ih =>
    intro s hlen hnb
    cases s with
    | nil => rfl
    | cons c cs =>
      have hc : c ≠ lbrace := fun h => hnb (h ▸ List.mem_cons_self c cs)
      have hpre : sortTmpl.isPrefixOf (c :: cs) = false := by
        simp [sortTmpl, List.isPrefixOf]
        intro h
        exact absurd h.symm hc
      unfold replaceSortGo
      rw [hpre]
      simp only [Bool.false_eq_true, if_false]
      rw [ih cs (by simp at hlen; omega)
        (fun hm => hnb (List.mem_cons_of_mem c hm))]

theorem replaceSortGo_strips : ∀ (a : List Char), lbrace ∉ a →
    ∀ (fuel : Nat) (b : List Char),
      (a ++ sortTmpl ++ b).length ≤ fuel → lbrace ∉ b →
      replaceSortGo fuel (a ++ sortTmpl ++ b) = a ++ b := by
  intro a
  induction a with
  | nil =>
    intro _ fuel b hlen hb
    cases fuel with
    | zero => simp [sortTmpl] at hlen
    | succ f =>
      simp only [List.nil_append]
      have hpre : sortTmpl.isPrefixOf (sortTmpl ++ b) = true := by
        simp [sortTmpl, List.isPrefixOf]
      show replaceSortGo (f + 1) (sortTmpl ++ b) = b
      have hcons : sortTmpl ++ b
          = lbrace :: ('&' :: 's' :: 'o' :: 'r' :: 't' :: rbrace :: b) := by
        simp [sortTmpl]
      rw [hcons]
      unfold replaceSortGo
      rw [show (lbrace :: '&' :: 's' :: 'o' :: 'r' :: 't' :: rbrace :: b)
          = sortTmpl ++ b from hcons.symm, hpre]
      simp only [if_true]
      have hdrop : (sortTmpl ++ b).drop sortTmpl.length = b :=
        List.drop_left sortTmpl b
      rw [hdrop]
      apply replaceSortGo_bracefree f b _ hb
      simp [sortTmpl] at hlen
      omega
  | cons ca a' ih =>
    intro hna fuel b hlen hb
    have hca : ca ≠ lbrace := fun h => hna (h ▸ List.mem_cons_self ca a')
    have hna' : lbrace ∉ a' := fun hm => hna (List.mem_cons_of_mem ca hm)
    cases fuel with
    | zero => simp at hlen
    | succ f =>
      have hpre : sortTmpl.isPrefixOf
          (ca :: (a' ++ sortTmpl ++ b)) = false := by
        simp [sortTmpl, List.isPrefixOf]
        intro h
        exact absurd h.symm hca
      have hcons : (ca :: a') ++ sortTmpl ++ b
          = ca :: (a' ++ sortTmpl ++ b) := by simp
      rw [hcons]
      unfold replaceSortGo
      rw [hpre]
      simp only [Bool.false_eq_true, if_false]
      rw [ih hna' f b (by simp at hlen ⊢; omega) hb]
      rfl

set_option maxRecDepth 40000 in
/-- **C7 (amended).** The regex cleanup used by `_Util.assign_links` is
total (it is a pure scan, raising nothing) and removes every
brace-delimited fragment with a non-empty interior from any href
without newlines — no such fragment survives in its output (fragments
with an empty interior, like a bare brace pair, are not matched by the
`.+` pattern, and the dot does not match newlines).  The `Page.link_next`
accessor strips only the literal sort template: for an href of the form
`a ++ sort-template ++ b` with `a`, `b` free of braces, it returns the
base URL with `a ++ b` appended, which contains no brace-delimited
substring; other templated fragments are retained (see the
counterexample). -/
theorem claim_C7_amended :
    (∀ s : List Char, '\n' ∉ s → ¬ hasBraceFrag (pySub s))
    ∧ (∀ a b : List Char, lbrace ∉ a → rbrace ∉ a → lbrace ∉ b → rbrace ∉ b →
        linkNextStr (some (.str (String.mk (a ++ sortTmpl ++ b))))
          = baseUrl.data ++ a ++ b
        ∧ ¬ hasBraceFrag (baseUrl.data ++ a ++ b)) := by
  constructor
  · intro s hnl
    exact pySubGo_no_frag s.length s le_rfl hnl
  · intro a b hla hra hlb hrb
    have hbase : lbrace ∉ baseUrl.data := by decide
    have hla' : lbrace ∉ baseUrl.data ++ a := by
      intro hm
      rcases List.mem_append.mp hm with hm | hm
      · exact hbase hm
      · exact hla hm
    constructor
    · show replaceSort (baseUrl.data ++ (a ++ sortTmpl ++ b))
        = baseUrl.data ++ a ++ b
      have hassoc : baseUrl.data ++ (a ++ sortTmpl ++ b)
          = (baseUrl.data ++ a) ++ sortTmpl ++ b := by simp
      rw [hassoc]
      unfold replaceSort
      rw [replaceSortGo_strips (baseUrl.data ++ a) hla' _ b le_rfl hlb]
    · intro hfrag
      have hmem := hasBraceFrag_mem hfrag
      rcases List.mem_append.mp hmem with hm | hm
      · exact hla' hm
      · exact hlb hm

set_option maxRecDepth 40000 in
/-- **C7 (counterexample).** For the href `/e` followed by a
brace-delimited `&page` fragment, the `Page.link_next` accessor (which
only replaces the literal sort template) returns the base URL with the
fragment intact: the output still contains a brace-delimited
substring. -/
theorem claim_C7_counterexample :
    linkNextStr (some (.str "/e\x7b&page\x7d"))
      = "https://app.ticketmaster.com/e".data
          ++ lbrace :: ("&page".data ++ rbrace :: [])
    ∧ hasBraceFrag (linkNextStr (some (.str "/e\x7b&page\x7d"))) := by
  constructor
  · rfl
  · exact ⟨"https://app.ticketmaster.com/e".data, "&page".data, [],
      rfl, by decide⟩

set_option maxRecDepth 40000 in
/-- Witness for C7 at concrete hrefs: the regex cleanup leaves no
fragment in a templated event-search href, and the accessor strips a
trailing sort template. -/
theorem claim_C7_witness :
    ¬ hasBraceFrag (pySub "/events?sort=date\x7b&sort\x7d".data)
    ∧ linkNextStr (some (.str (String.mk
        ("/events?page=1".data ++ sortTmpl ++ []))))
      = baseUrl.data ++ "/events?page=1".data ++ []
    ∧ ¬ hasBraceFrag (baseUrl.data ++ "/events?page=1".data ++ []) := by
  refine ⟨claim_C7_amended.1 _ (by decide), ?_, ?_⟩
  · exact (claim_C7_amended.2 "/events?page=1".data []
      (by decide) (by decide) (by decide) (by decide)).1
  · exact (claim_C7_amended.2 "/events?page=1".data []
      (by decide) (by decide) (by decide) (by decide)).2

end Ticketpy
